import Mathlib

/-!
Verification development for the `oshokin/id3v2` Go library (ID3v2.3/2.4 tag codec).

The Go sources are shallowly embedded: Go strings are lists of byte values
(`List Nat`, each element `< 256` in well-formed states), Go byte slices are
also `List Nat`, Go `uint` arithmetic is `Nat` arithmetic modulo `2 ^ 64`,
and fallible operations return `Except Err _` where Go returns `(value, error)`.
Writers are modelled by the list of bytes they emit: the Go `n` (count of
bytes written) is the length of that list.
-/

namespace Id3v2

/-! ## Basic byte-level helpers -/

/-- Big-endian 4-byte encoding of a 32-bit value (`binary.BigEndian.PutUint32`).
Values are truncated bytewise exactly as a `uint32` store would. -/
def be4 (u : Nat) : List Nat :=
  [u / 2 ^ 24 % 256, u / 2 ^ 16 % 256, u / 2 ^ 8 % 256, u % 256]

/-- UTF-8 bytes of a single Unicode code point (RFC 3629 ranges). -/
def utf8Char (c : Nat) : List Nat :=
  if c < 0x80 then [c]
  else if c < 0x800 then [0xC0 + c / 64, 0x80 + c % 64]
  else if c < 0x10000 then [0xE0 + c / 4096, 0x80 + c / 64 % 64, 0x80 + c % 64]
  else [0xF0 + c / 262144, 0x80 + c / 4096 % 64, 0x80 + c / 64 % 64, 0x80 + c % 64]

/-- UTF-8 encoding of a list of code points. -/
def utf8EncodeCP (s : List Nat) : List Nat :=
  (s.map utf8Char).flatten

/-- Whether a byte is a UTF-8 continuation byte (`10xxxxxx`). -/
def isCont (b : Nat) : Bool :=
  0x80 ≤ b && b ≤ 0xBF

/-- One step of UTF-8 decoding, Go `utf8.DecodeRune` semantics: returns the
decoded code point and the number of bytes consumed; malformed input yields
the replacement character U+FFFD with one byte consumed. -/
def utf8Step (b : Nat) (rest : List Nat) : Nat × Nat :=
  if b < 0x80 then (b, 1)
  else if 0xC2 ≤ b && b ≤ 0xDF then
    match rest with
    | c1 :: _ =>
      if isCont c1 then ((b - 0xC0) * 64 + (c1 - 0x80), 2) else (0xFFFD, 1)
    | [] => (0xFFFD, 1)
  else if 0xE0 ≤ b && b ≤ 0xEF then
    match rest with
    | c1 :: c2 :: _ =>
      let lo1 := if b = 0xE0 then 0xA0 else 0x80
      let hi1 := if b = 0xED then 0x9F else 0xBF
      if (lo1 ≤ c1 && c1 ≤ hi1) && isCont c2 then
        ((b - 0xE0) * 4096 + (c1 - 0x80) * 64 + (c2 - 0x80), 3)
      else (0xFFFD, 1)
    | _ => (0xFFFD, 1)
  else if 0xF0 ≤ b && b ≤ 0xF4 then
    match rest with
    | c1 :: c2 :: c3 :: _ =>
      let lo1 := if b = 0xF0 then 0x90 else 0x80
      let hi1 := if b = 0xF4 then 0x8F else 0xBF
      if ((lo1 ≤ c1 && c1 ≤ hi1) && isCont c2) && isCont c3 then
        ((b - 0xF0) * 262144 + (c1 - 0x80) * 4096 + (c2 - 0x80) * 64 + (c3 - 0x80), 4)
      else (0xFFFD, 1)
    | _ => (0xFFFD, 1)
  else (0xFFFD, 1)

/-- Fuel-driven UTF-8 decoder body; the fuel is always at least the list
length, so the fuel-exhaustion branch is unreachable. -/
def utf8DecodeAux : Nat → List Nat → List Nat
  | 0, _ => []
  | _, [] => []
  | fuel + 1, b :: rest =>
    let (cp, consumed) := utf8Step b rest
    cp :: utf8DecodeAux fuel ((b :: rest).drop consumed)

/-- Decode a Go string (UTF-8 byte sequence) to its code points, replacing
malformed sequences with U+FFFD, as ranging over a Go string does. -/
def utf8Decode (s : List Nat) : List Nat :=
  utf8DecodeAux s.length s

/-- Big-endian UTF-16 bytes of one code point (surrogate pair above U+FFFF). -/
def utf16Char (c : Nat) : List Nat :=
  if c < 0x10000 then [c / 256 % 256, c % 256]
  else
    let v := c - 0x10000
    let hi := 0xD800 + v / 1024
    let lo := 0xDC00 + v % 1024
    [hi / 256, hi % 256, lo / 256, lo % 256]

/-- Big-endian UTF-16 encoding of a list of code points. -/
def utf16BE (s : List Nat) : List Nat :=
  (s.map utf16Char).flatten

/-! ## Encodings (src/unnamed/part_003) -/

/-- Model of the Go `Encoding` struct: name, key byte and termination bytes. -/
structure Encoding where
  name : String
  key : Nat
  terminationBytes : List Nat
deriving DecidableEq

/-- `Encoding.Equals` compares encodings by key, as the source does. -/
def Encoding.Equals (e other : Encoding) : Bool :=
  e.key == other.key

/-- ISO-8859-1 encoding. -/
def EncodingISO : Encoding :=
  ⟨"ISO-8859-1", 0, [0]⟩

/-- UTF-16 encoded Unicode with BOM. -/
def EncodingUTF16 : Encoding :=
  ⟨"UTF-16 encoded Unicode with BOM", 1, [0, 0]⟩

/-- UTF-16BE encoded Unicode without BOM. -/
def EncodingUTF16BE : Encoding :=
  ⟨"UTF-16BE encoded Unicode without BOM", 2, [0, 0]⟩

/-- UTF-8 encoded Unicode. -/
def EncodingUTF8 : Encoding :=
  ⟨"UTF-8 encoded Unicode", 3, [0]⟩

/-- The slice of all supported encodings, in key order. -/
def encodings : List Encoding :=
  [EncodingISO, EncodingUTF16, EncodingUTF16BE, EncodingUTF8]

/-- `bom` from the source: the byte-order mark used for little-endian
detection when decoding. -/
def bom : List Nat :=
  [0xFF, 0xFE]

/-- The byte-order mark the `unicode.UTF16(BigEndian, ExpectBOM)` encoder
prefixes to its output. -/
def bomBE : List Nat :=
  [0xFE, 0xFF]

/-- `getEncoding`: resolve an ID3v2 encoding key byte, defaulting to UTF-8 for
keys above 3; otherwise index into `encodings` (in range whenever key ≤ 3,
mirroring the Go slice index). -/
def getEncoding (key : Nat) : Encoding :=
  if key > 3 then EncodingUTF8
  else ((encodings.get? key).getD EncodingUTF8)

/-! ## Error values -/

/-- Error values surfaced by the library. Distinct Go `error` values become
distinct constructors; a Go runtime panic is modelled by `runtimePanic`. -/
inductive Err where
  | eof
  | invalidSizeFormat
  | sizeOverflow
  | invalidLanguageLength
  | noTag
  | smallHeaderSize
  | unsupportedVersion
  | unencodableText
  | runtimePanic
deriving DecidableEq

deriving instance DecidableEq for Except

/-! ## Text encoding engine (src/unnamed/part_003) -/

/-- The bytes produced by `resolveXEncoding(nil, to)` followed by
`Encoder.String(src)`: key 0 is the ISO-8859-1 charmap encoder (decodes the
UTF-8 source to runes, errors on a rune above U+00FF), key 1 is UTF-16 big
endian with a leading BOM, key 2 is UTF-16 big endian without BOM, anything
else is the UTF-8 passthrough. -/
def xEncodeString (key : Nat) (src : List Nat) : Except Err (List Nat) :=
  match key with
  | 0 =>
    let cps := utf8Decode src
    if cps.all (· < 256) then .ok cps else .error .unencodableText
  | 1 => .ok (bomBE ++ utf16BE (utf8Decode src))
  | 2 => .ok (utf16BE (utf8Decode src))
  | _ => .ok src

/-- Bytes appended to the buffered writer by `encodeWriteText(bw, src, to)`:
UTF-8 text is written as-is; otherwise the resolved encoder output is
written, and for the BOM-carrying UTF-16 encoding a single zero byte is
appended when the encoder output does not already end in one. -/
def encodeWriteTextBytes (src : List Nat) (toEnc : Encoding) : Except Err (List Nat) :=
  if toEnc.Equals EncodingUTF8 then .ok src
  else
    match xEncodeString toEnc.key src with
    | .error e => .error e
    | .ok encoded =>
      if toEnc.Equals EncodingUTF16 && !(encoded.getLast? == some 0) then
        .ok (encoded ++ [0])
      else .ok encoded

/-- `encodedSize`: byte length of `src` under `enc`. UTF-8 returns the raw
byte length; otherwise the encoder runs into a counting writer. The Go code
panics when the encoder fails; that (unreachable under a successful write)
case yields 0 here. -/
def encodedSize (src : List Nat) (enc : Encoding) : Nat :=
  if enc.Equals EncodingUTF8 then src.length
  else
    match encodeWriteTextBytes src enc with
    | .ok l => l.length
    | .error _ => 0

/-! ## Size codec (src/size.go) -/

/-- Length in bytes of the ID3v2 size format. -/
def id3SizeLen : Nat := 4

/-- Maximum synch-safe size (28 bits). -/
def synchSafeMaxSize : Nat := 268435455

/-- Bits per byte in a synch-safe integer. -/
def synchSafeSizeBase : Nat := 7

/-- Mask extracting the 7 bits below the top bit of a 32-bit value. -/
def synchSafeMask : Nat := 254 <<< (3 * 8)

/-- Maximum non-synch-safe size (32 bits). -/
def synchUnsafeMaxSize : Nat := 4294967295

/-- Bits per byte in a non-synch-safe integer. -/
def synchUnsafeSizeBase : Nat := 8

/-- Mask extracting the top byte of a 32-bit value. -/
def synchUnsafeMask : Nat := 255 <<< (3 * 8)

/-- Modulus of Go `uint` arithmetic (64-bit). -/
def uintMod : Nat := 2 ^ 64

/-- The 4-iteration loop body of `writeSynchSafeBytesSize`: extract the
masked 7 bits, shift them down to a byte, then shift the state left by 7. -/
def synchSafeBytesLoop : Nat → Nat → List Nat
  | 0, _ => []
  | n + 1, size =>
    ((size &&& synchSafeMask) >>> (3 * 8 + 1)) % 256 ::
      synchSafeBytesLoop n ((size <<< synchSafeSizeBase) % uintMod)

/-- `writeSynchSafeBytesSize`: reject sizes above the synch-safe maximum,
otherwise shift left by 4 and emit 7 bits per byte over 4 bytes. -/
def writeSynchSafeBytesSize (size : Nat) : Except Err (List Nat) :=
  if size > synchSafeMaxSize then .error .sizeOverflow
  else .ok (synchSafeBytesLoop id3SizeLen ((size <<< 4) % uintMod))

/-- The 4-iteration loop body of `writeSynchUnsafeBytesSize`. -/
def synchUnsafeBytesLoop : Nat → Nat → List Nat
  | 0, _ => []
  | n + 1, size =>
    ((size &&& synchUnsafeMask) >>> (3 * 8)) % 256 ::
      synchUnsafeBytesLoop n ((size <<< synchUnsafeSizeBase) % uintMod)

/-- `writeSynchUnsafeBytesSize`: reject sizes above 2^32-1, otherwise emit
the 4 big-endian bytes. -/
def writeSynchUnsafeBytesSize (size : Nat) : Except Err (List Nat) :=
  if size > synchUnsafeMaxSize then .error .sizeOverflow
  else .ok (synchUnsafeBytesLoop id3SizeLen size)

/-- `writeBytesSize` dispatches on the synch-safe flag. -/
def writeBytesSize (size : Nat) (synchSafe : Bool) : Except Err (List Nat) :=
  if synchSafe then writeSynchSafeBytesSize size
  else writeSynchUnsafeBytesSize size

/-- The per-byte fold of `parseSize`: with the synch-safe flag set, a byte
with its top bit set aborts with the size-format error; otherwise the byte is
shifted into the accumulator. -/
def parseSizeLoop (synchSafe : Bool) : List Nat → Nat → Except Err Nat
  | [], size => .ok size
  | b :: rest, size =>
    if synchSafe && decide (b &&& 128 > 0) then .error .invalidSizeFormat
    else
      parseSizeLoop synchSafe rest
        ((size <<< (if synchSafe then synchSafeSizeBase else synchUnsafeSizeBase)) ||| b)

/-- `parseSize`: reject inputs longer than 4 bytes, then fold the bytes. -/
def parseSize (data : List Nat) (synchSafe : Bool) : Except Err Nat :=
  if data.length > id3SizeLen then .error .invalidSizeFormat
  else parseSizeLoop synchSafe data 0

/-! ## Frame ids and frame-header writing (src/common_ids.go, src/unnamed/part_004) -/

/-- ID of the title frame. -/
def TitleFrameID : String := "TIT2"

/-- ID of the subtitle refinement frame. -/
def SubtitleRefinementFrameID : String := "TIT3"

/-- ID of user-defined text frames. -/
def UserDefinedTextFrameID : String := "TXXX"

/-- Size in bytes of an ID3v2 frame header. -/
def frameHeaderSize : Nat := 10

/-- UTF-8 bytes of a Lean string (used for the ASCII frame ids written by
`bw.WriteString(id)`). -/
def strBytes (s : String) : List Nat :=
  utf8EncodeCP (s.data.map Char.toNat)

/-- `writeFrameHeader`: frame id, 4 size bytes (synch-safe when requested),
then two zero flag bytes. -/
def writeFrameHeader (id : String) (frameSize : Nat) (synchSafe : Bool) :
    Except Err (List Nat) :=
  match writeBytesSize frameSize synchSafe with
  | .error e => .error e
  | .ok sb => .ok (strBytes id ++ sb ++ [0, 0])

/-! ## Frame variants: data, Size and WriteTo

Each variant mirrors its Go struct with Go strings as byte lists. `WriteTo`
returns the emitted byte list; the Go byte count `n` is its length. -/

/-- `TextFrame` (src/text_frame.go). -/
structure TextFrame where
  encoding : Encoding
  text : List Nat
  multi : List (List Nat)
deriving DecidableEq

/-- `TextFrame.Size`: encoding byte, encoded text, termination bytes. -/
def TextFrame.Size (tf : TextFrame) : Nat :=
  1 + encodedSize tf.text tf.encoding + tf.encoding.terminationBytes.length

/-- `TextFrame.WriteTo`. -/
def TextFrame.WriteTo (tf : TextFrame) : Except Err (List Nat) :=
  match encodeWriteTextBytes tf.text tf.encoding with
  | .error e => .error e
  | .ok e => .ok ([tf.encoding.key] ++ e ++ tf.encoding.terminationBytes)

/-- `CommentFrame` (src/comment_frame.go). -/
structure CommentFrame where
  encoding : Encoding
  language : List Nat
  description : List Nat
  text : List Nat
deriving DecidableEq

/-- `CommentFrame.Size`. -/
def CommentFrame.Size (cf : CommentFrame) : Nat :=
  1 + cf.language.length + encodedSize cf.description cf.encoding +
    cf.encoding.terminationBytes.length + encodedSize cf.text cf.encoding

/-- `CommentFrame.WriteTo`: rejects a language whose byte length is not 3. -/
def CommentFrame.WriteTo (cf : CommentFrame) : Except Err (List Nat) :=
  if cf.language.length ≠ 3 then .error .invalidLanguageLength
  else do
    let d ← encodeWriteTextBytes cf.description cf.encoding
    let t ← encodeWriteTextBytes cf.text cf.encoding
    .ok ([cf.encoding.key] ++ cf.language ++ d ++ cf.encoding.terminationBytes ++ t)

/-- `PictureFrame` (part of src/unnamed/part_004). -/
structure PictureFrame where
  encoding : Encoding
  mimeType : List Nat
  pictureType : Nat
  description : List Nat
  picture : List Nat
deriving DecidableEq

/-- `PictureFrame.Size`. -/
def PictureFrame.Size (pf : PictureFrame) : Nat :=
  1 + pf.mimeType.length + 1 + 1 + encodedSize pf.description pf.encoding +
    pf.encoding.terminationBytes.length + pf.picture.length

/-- `PictureFrame.WriteTo`. -/
def PictureFrame.WriteTo (pf : PictureFrame) : Except Err (List Nat) := do
  let d ← encodeWriteTextBytes pf.description pf.encoding
  .ok ([pf.encoding.key] ++ pf.mimeType ++ [0] ++ [pf.pictureType] ++ d ++
    pf.encoding.terminationBytes ++ pf.picture)

/-- Minimal big-endian bytes of a natural number, matching `big.Int.Bytes()`
(the empty slice for zero). -/
def bigIntBytes (n : Nat) : List Nat :=
  if h : n = 0 then [] else bigIntBytes (n / 256) ++ [n % 256]
termination_by n
decreasing_by exact Nat.div_lt_self (Nat.pos_of_ne_zero h) (by norm_num)

/-- `PopularimeterFrame` (part of src/unnamed/part_004); the `Counter`
big.Int is modelled as a natural number. -/
structure PopularimeterFrame where
  email : List Nat
  rating : Nat
  counter : Nat
deriving DecidableEq

/-- `counterBytes`: the counter's bytes, left-padded with zeros to at least
4 bytes. -/
def PopularimeterFrame.counterBytes (pf : PopularimeterFrame) : List Nat :=
  let bytes := bigIntBytes pf.counter
  if bytes.length < 4 then List.replicate (4 - bytes.length) 0 ++ bytes else bytes

/-- `PopularimeterFrame.Size`. -/
def PopularimeterFrame.Size (pf : PopularimeterFrame) : Nat :=
  pf.email.length + 1 + 1 + pf.counterBytes.length

/-- `PopularimeterFrame.WriteTo`. -/
def PopularimeterFrame.WriteTo (pf : PopularimeterFrame) : Except Err (List Nat) :=
  .ok (pf.email ++ [0] ++ [pf.rating] ++ pf.counterBytes)

/-- `UFIDFrame` (src/unnamed/part_001). -/
structure UFIDFrame where
  ownerIdentifier : List Nat
  identifier : List Nat
deriving DecidableEq

/-- `UFIDFrame.Size`: measures the owner identifier in its ISO-8859-1
encoding (while `WriteTo` emits the raw string bytes). -/
def UFIDFrame.Size (uf : UFIDFrame) : Nat :=
  encodedSize uf.ownerIdentifier EncodingISO + EncodingISO.terminationBytes.length +
    uf.identifier.length

/-- `UFIDFrame.WriteTo`: raw owner bytes, ISO termination byte, identifier. -/
def UFIDFrame.WriteTo (uf : UFIDFrame) : Except Err (List Nat) :=
  .ok (uf.ownerIdentifier ++ EncodingISO.terminationBytes ++ uf.identifier)

/-- `LinkFrame` (src/link_frame.go). -/
structure LinkFrame where
  encoding : Encoding
  url : List Nat
deriving DecidableEq

/-- `LinkFrame.Size`. -/
def LinkFrame.Size (lf : LinkFrame) : Nat :=
  1 + encodedSize lf.url lf.encoding + lf.encoding.terminationBytes.length

/-- `LinkFrame.WriteTo`. -/
def LinkFrame.WriteTo (lf : LinkFrame) : Except Err (List Nat) := do
  let e ← encodeWriteTextBytes lf.url lf.encoding
  .ok ([lf.encoding.key] ++ e ++ lf.encoding.terminationBytes)

/-- `UserDefinedTextFrame` (part of src/unnamed/part_004). -/
structure UserDefinedTextFrame where
  encoding : Encoding
  description : List Nat
  value : List Nat
  multi : List (List Nat)
deriving DecidableEq

/-- `UserDefinedTextFrame.Size`. -/
def UserDefinedTextFrame.Size (udtf : UserDefinedTextFrame) : Nat :=
  1 + encodedSize udtf.description udtf.encoding +
    udtf.encoding.terminationBytes.length + encodedSize udtf.value udtf.encoding

/-- `UserDefinedTextFrame.WriteTo`. -/
def UserDefinedTextFrame.WriteTo (udtf : UserDefinedTextFrame) : Except Err (List Nat) := do
  let d ← encodeWriteTextBytes udtf.description udtf.encoding
  let v ← encodeWriteTextBytes udtf.value udtf.encoding
  .ok ([udtf.encoding.key] ++ d ++ udtf.encoding.terminationBytes ++ v)

/-- `SynchronizedText` (src/synchronised_lyrics_frame.go). -/
structure SynchronizedText where
  text : List Nat
  timestamp : Nat
deriving DecidableEq

/-- `timestampToBigEndian`: the timestamp as 4 big-endian bytes. -/
def SynchronizedText.timestampToBigEndian (sy : SynchronizedText) : List Nat :=
  be4 sy.timestamp

/-- `SynchronisedLyricsFrame` (src/synchronised_lyrics_frame.go). -/
structure SynchronisedLyricsFrame where
  encoding : Encoding
  language : List Nat
  timestampFormat : Nat
  contentType : Nat
  contentDescriptor : List Nat
  synchronizedTexts : List SynchronizedText
deriving DecidableEq

/-- The per-entry sum in `SynchronisedLyricsFrame.Size`: encoded text,
termination bytes and a 4-byte timestamp for each entry. -/
def syncTextsSize (enc : Encoding) : List SynchronizedText → Nat
  | [] => 0
  | v :: rest =>
    encodedSize v.text enc + enc.terminationBytes.length + 4 + syncTextsSize enc rest

/-- Bytes emitted for the synchronized text entries in
`SynchronisedLyricsFrame.WriteTo`. -/
def syncTextsBytes (enc : Encoding) : List SynchronizedText → Except Err (List Nat)
  | [] => .ok []
  | v :: rest => do
    let e ← encodeWriteTextBytes v.text enc
    let r ← syncTextsBytes enc rest
    .ok (e ++ enc.terminationBytes ++ v.timestampToBigEndian ++ r)

/-- `SynchronisedLyricsFrame.Size`. -/
def SynchronisedLyricsFrame.Size (sylf : SynchronisedLyricsFrame) : Nat :=
  1 + sylf.language.length + encodedSize sylf.contentDescriptor sylf.encoding +
    sylf.encoding.terminationBytes.length +
    syncTextsSize sylf.encoding sylf.synchronizedTexts + 1 + 1

/-- `SynchronisedLyricsFrame.WriteTo`: rejects a language whose byte length
is not 3, then writes encoding key, language, timestamp format byte, content
type byte, descriptor, termination bytes and every synchronized entry. -/
def SynchronisedLyricsFrame.WriteTo (sylf : SynchronisedLyricsFrame) :
    Except Err (List Nat) :=
  if sylf.language.length ≠ 3 then .error .invalidLanguageLength
  else do
    let d ← encodeWriteTextBytes sylf.contentDescriptor sylf.encoding
    let s ← syncTextsBytes sylf.encoding sylf.synchronizedTexts
    .ok ([sylf.encoding.key] ++ sylf.language ++ [sylf.timestampFormat] ++
      [sylf.contentType] ++ d ++ sylf.encoding.terminationBytes ++ s)

/-- `UnsynchronisedLyricsFrame` (src/unnamed/part_004). -/
structure UnsynchronisedLyricsFrame where
  encoding : Encoding
  language : List Nat
  contentDescriptor : List Nat
  lyrics : List Nat
deriving DecidableEq

/-- `UnsynchronisedLyricsFrame.Size`. -/
def UnsynchronisedLyricsFrame.Size (uslf : UnsynchronisedLyricsFrame) : Nat :=
  1 + uslf.language.length + encodedSize uslf.contentDescriptor uslf.encoding +
    uslf.encoding.terminationBytes.length + encodedSize uslf.lyrics uslf.encoding

/-- `UnsynchronisedLyricsFrame.WriteTo`: rejects a language whose byte length
is not 3. -/
def UnsynchronisedLyricsFrame.WriteTo (uslf : UnsynchronisedLyricsFrame) :
    Except Err (List Nat) :=
  if uslf.language.length ≠ 3 then .error .invalidLanguageLength
  else do
    let d ← encodeWriteTextBytes uslf.contentDescriptor uslf.encoding
    let l ← encodeWriteTextBytes uslf.lyrics uslf.encoding
    .ok ([uslf.encoding.key] ++ uslf.language ++ d ++
      uslf.encoding.terminationBytes ++ l)

/-- Nanoseconds per millisecond (`nanosInMillis`). -/
def nanosInMillis : Int := 1000000

/-- Offset sentinel meaning "ignore; use the time instead". -/
def IgnoredOffset : Nat := 0xFFFFFFFF

/-- `truncateInt64ToInt32`: clamp an int64 into int32 range. -/
def truncateInt64ToInt32 (value : Int) : Int :=
  if value < -2147483648 then -2147483648
  else if value > 2147483647 then 2147483647
  else value

/-- Big-endian bytes of an int32 value, two's complement
(`binary.Write(bw, binary.BigEndian, int32)`). -/
def int32BE (v : Int) : List Nat :=
  be4 (v % 4294967296).toNat

/-- `ChapterFrame` (src/chapter_frame.go); start/end times are Go
`time.Duration` (int64 nanoseconds). -/
structure ChapterFrame where
  elementID : List Nat
  startTime : Int
  endTime : Int
  startOffset : Nat
  endOffset : Nat
  title : Option TextFrame
  description : Option TextFrame
  link : Option LinkFrame
  artwork : Option PictureFrame
deriving DecidableEq

/-- `ChapterFrame.Size`: element id and trailing zero, four 4-byte numeric
fields, plus a full frame (header and body) for the title and description
subframes when present. -/
def ChapterFrame.Size (cf : ChapterFrame) : Nat :=
  encodedSize cf.elementID EncodingISO + 1 + (4 + 4 + 4 + 4) +
    (match cf.title with
     | none => 0
     | some t => frameHeaderSize + t.Size) +
    (match cf.description with
     | none => 0
     | some d => frameHeaderSize + d.Size)

/-- `writeFrame(bw, id, f, true)` specialised to the text subframes embedded
in a chapter: frame header (synch-safe size) followed by the frame body. -/
def writeTextSubframe (id : String) (tf : TextFrame) : Except Err (List Nat) := do
  let h ← writeFrameHeader id tf.Size true
  let b ← tf.WriteTo
  .ok (h ++ b)

/-- The bytes of an optional embedded text subframe: a chapter writes the
subframe (header and body) when present and nothing when the field is nil. -/
def optionalTextSubframe (id : String) : Option TextFrame → Except Err (List Nat)
  | none => .ok []
  | some t => writeTextSubframe id t

/-- `ChapterFrame.WriteTo`: element id in ISO encoding plus a zero byte, the
start/end times in milliseconds as big-endian int32, the start/end offsets,
then the optional title and description subframes. -/
def ChapterFrame.WriteTo (cf : ChapterFrame) : Except Err (List Nat) := do
  let e ← encodeWriteTextBytes cf.elementID EncodingISO
  let tpart ← optionalTextSubframe TitleFrameID cf.title
  let dpart ← optionalTextSubframe SubtitleRefinementFrameID cf.description
  .ok (e ++ [0] ++
    int32BE (truncateInt64ToInt32 (cf.startTime.tdiv nanosInMillis)) ++
    int32BE (truncateInt64ToInt32 (cf.endTime.tdiv nanosInMillis)) ++
    be4 cf.startOffset ++ be4 cf.endOffset ++ tpart ++ dpart)

/-- `UnknownFrame` (defined alongside the tests in
src/synchronised_lyrics_frame_test.go): raw body bytes. The random integer
drawn by `UniqueIdentifier` is modelled as the `randId` field. -/
structure UnknownFrame where
  body : List Nat
  randId : Nat
deriving DecidableEq

/-- `UnknownFrame.Size`. -/
def UnknownFrame.Size (uf : UnknownFrame) : Nat :=
  uf.body.length

/-- `UnknownFrame.WriteTo`: the raw body. -/
def UnknownFrame.WriteTo (uf : UnknownFrame) : Except Err (List Nat) :=
  .ok uf.body

/-- The `Framer` interface as a closed sum over the library's frame types. -/
inductive Framer where
  | text (tf : TextFrame)
  | comment (cf : CommentFrame)
  | picture (pf : PictureFrame)
  | popularimeter (pf : PopularimeterFrame)
  | ufid (uf : UFIDFrame)
  | link (lf : LinkFrame)
  | userDefinedText (udtf : UserDefinedTextFrame)
  | syncLyrics (sylf : SynchronisedLyricsFrame)
  | unsyncLyrics (uslf : UnsynchronisedLyricsFrame)
  | chapter (cf : ChapterFrame)
  | unknown (uf : UnknownFrame)
deriving DecidableEq

/-- `Size` dispatch over the frame variants. -/
def Framer.Size : Framer → Nat
  | .text tf => tf.Size
  | .comment cf => cf.Size
  | .picture pf => pf.Size
  | .popularimeter pf => pf.Size
  | .ufid uf => uf.Size
  | .link lf => lf.Size
  | .userDefinedText udtf => udtf.Size
  | .syncLyrics sylf => sylf.Size
  | .unsyncLyrics uslf => uslf.Size
  | .chapter cf => cf.Size
  | .unknown uf => uf.Size

/-- `WriteTo` dispatch over the frame variants. -/
def Framer.WriteTo : Framer → Except Err (List Nat)
  | .text tf => tf.WriteTo
  | .comment cf => cf.WriteTo
  | .picture pf => pf.WriteTo
  | .popularimeter pf => pf.WriteTo
  | .ufid uf => uf.WriteTo
  | .link lf => lf.WriteTo
  | .userDefinedText udtf => udtf.WriteTo
  | .syncLyrics sylf => sylf.WriteTo
  | .unsyncLyrics uslf => uslf.WriteTo
  | .chapter cf => cf.WriteTo
  | .unknown uf => uf.WriteTo

/-! ## Sequences (src/unnamed/part_000)

The Go `sequence` stores `Framer` interface values and only ever calls
`UniqueIdentifier()` on them; it is modelled generically over the element
type `α` together with the identity-key function `uid`. -/

/-- `sequence`: an ordered collection of frames sharing one id. -/
structure sequence (α : Type) where
  frames : List α
deriving DecidableEq

/-- The indexed loop inside `indexOfFrame`. -/
def indexOfFrameAux {α : Type} (uid : α → String) (f : α) : List α → Nat → Int
  | [], _ => -1
  | ff :: rest, i => if uid f = uid ff then Int.ofNat i else indexOfFrameAux uid f rest (i + 1)

/-- `indexOfFrame`: index of the first frame with the same identity key,
`-1` if absent. -/
def indexOfFrame {α : Type} (uid : α → String) (f : α) (fs : List α) : Int :=
  indexOfFrameAux uid f fs 0

/-- `sequence.AddFrame`: replace the entry with the same identity key in
place, or append when the key is new. -/
def sequence.AddFrame {α : Type} (uid : α → String) (s : sequence α) (f : α) :
    sequence α :=
  let i := indexOfFrame uid f s.frames
  if i = -1 then ⟨s.frames ++ [f]⟩ else ⟨s.frames.set i.toNat f⟩

/-- `sequence.Count`. -/
def sequence.Count {α : Type} (s : sequence α) : Nat :=
  s.frames.length

/-- `sequence.Frames`. -/
def sequence.Frames {α : Type} (s : sequence α) : List α :=
  s.frames

/-! ## Frame routing and the tag aggregate (src/common_ids.go, src/unnamed/part_004) -/

/-- `strings.HasPrefix(id, "T")`: the first character is `'T'`. -/
def startsWithT (id : String) : Bool :=
  match id.data with
  | c :: _ => c = 'T'
  | [] => false

/-- `mustFrameBeInSequence`, translated statement by statement from the Go
source. Text frames other than TXXX are never sequenced. The Go `switch`
then has two cases: the first (`"MCDI", ..., "ASPI"`) has an EMPTY body, and
Go `switch` cases do not fall through, so for those ids control exits the
switch and reaches the final `return true`; only the second case
(`"IPLS", "RVAD"`) returns false. -/
def mustFrameBeInSequence (id : String) : Bool :=
  if id ≠ UserDefinedTextFrameID ∧ startsWithT id then false
  else if id = "MCDI" ∨ id = "ETCO" ∨ id = "SYTC" ∨ id = "RVRB" ∨ id = "MLLT" ∨
      id = "PCNT" ∨ id = "RBUF" ∨ id = "POSS" ∨ id = "OWNE" ∨ id = "SEEK" ∨
      id = "ASPI" then
    true
  else if id = "IPLS" ∨ id = "RVAD" then false
  else true

/-- Parsing options (src/unnamed/part_008). -/
structure Options where
  parse : Bool
  parseFrames : List String
deriving DecidableEq

/-- Lookup in a Go `map[string]β` modelled as an association list. -/
def mapGet {β : Type} (m : List (String × β)) (k : String) : Option β :=
  (m.find? (fun p => decide (p.1 = k))).map (·.2)

/-- Insert/overwrite in a Go `map[string]β` modelled as an association list. -/
def mapSet {β : Type} : List (String × β) → String → β → List (String × β)
  | [], k, v => [(k, v)]
  | (k', v') :: rest, k, v =>
    if k' = k then (k, v) :: rest else (k', v') :: mapSet rest k v

/-- The `Tag` aggregate (src/unnamed/part_004), generic over the stored
frame type with its identity-key function, like the Go `Framer` interface.
The `reader` handle (an `io.Reader`) is outside the shallow embedding. -/
structure Tag (α : Type) where
  frames : List (String × α)
  sequences : List (String × sequence α)
  defaultEncoding : Encoding
  originalSize : Nat
  version : Nat
deriving DecidableEq

/-- `Tag.AddFrame`: a no-op for an empty id or a nil frame; otherwise route
to the per-id sequence (creating a fresh one like `getSequence()` if absent)
or to the singular frame map. -/
def Tag.AddFrame {α : Type} (uid : α → String) (tag : Tag α) (id : String)
    (f : Option α) : Tag α :=
  if id = "" ∨ f.isNone then tag
  else
    match f with
    | none => tag
    | some fr =>
      if mustFrameBeInSequence id then
        let seq :=
          match mapGet tag.sequences id with
          | none => (⟨[]⟩ : sequence α)
          | some s => s
        { tag with sequences := mapSet tag.sequences id (seq.AddFrame uid fr) }
      else { tag with frames := mapSet tag.frames id fr }

/-- `Tag.Count`: singular frames plus the count of every sequence. -/
def Tag.Count {α : Type} (tag : Tag α) : Nat :=
  tag.frames.length + (tag.sequences.map (fun p => p.2.Count)).sum

/-- `Tag.HasFrames`. -/
def Tag.HasFrames {α : Type} (tag : Tag α) : Bool :=
  tag.frames.length > 0 || tag.sequences.length > 0

/-- `Tag.DeleteAllFrames`: both stores end up empty. -/
def Tag.DeleteAllFrames {α : Type} (tag : Tag α) : Tag α :=
  { tag with frames := [], sequences := [] }

/-- `Tag.init`: clear all frames, record the original size and version, and
derive the default encoding from the version (UTF-8 for v4, ISO otherwise). -/
def Tag.init {α : Type} (tag : Tag α) (originalSize : Nat) (version : Nat) : Tag α :=
  let t := tag.DeleteAllFrames
  { t with
    originalSize := originalSize
    version := version
    defaultEncoding := if version = 4 then EncodingUTF8 else EncodingISO }

/-! ## Buffered reader (src/buffered_reader.go)

The reader wraps a byte stream; here the stream is the list of bytes still
unread, plus the sticky error field. -/

/-- Model of `bufferedReader`: remaining bytes and the sticky error. -/
structure bufferedReader where
  data : List Nat
  err : Option Err
deriving DecidableEq

/-- `ReadByte`: 0 when an error is already recorded; records EOF on an empty
stream. -/
def bufferedReader.ReadByte (br : bufferedReader) : Nat × bufferedReader :=
  if br.err.isSome then (0, br)
  else
    match br.data with
    | [] => (0, { br with err := some .eof })
    | b :: rest => (b, { br with data := rest })

/-- `Next n`: peek-then-discard `n` bytes; records EOF when fewer than `n`
bytes remain (the peek fails before anything is consumed). -/
def bufferedReader.Next (br : bufferedReader) (n : Nat) : List Nat × bufferedReader :=
  if br.err.isSome then ([], br)
  else if n = 0 then ([], br)
  else if br.data.length < n then ([], { br with err := some .eof })
  else (br.data.take n, { br with data := br.data.drop n })

/-- `Discard n`: skip `n` bytes; on a short stream everything is discarded
and EOF is recorded. -/
def bufferedReader.Discard (br : bufferedReader) (n : Nat) : bufferedReader :=
  if br.err.isSome then br
  else if br.data.length < n then { data := [], err := some .eof }
  else { br with data := br.data.drop n }

/-- `ReadAll`: the rest of the stream (EOF is success); empty under a
recorded error. -/
def bufferedReader.ReadAll (br : bufferedReader) : List Nat × bufferedReader :=
  if br.err.isSome then ([], br)
  else (br.data, { br with data := [] })

/-- `readTillDelimiter`: bytes before the first occurrence of `d`, which is
left unconsumed; if `d` never occurs the whole stream is consumed and EOF is
returned. Mirrors `ReadBytes` followed by `UnreadByte`; like the Go method
it does not consult or set the sticky error. -/
def bufferedReader.readTillDelimiter (br : bufferedReader) (d : Nat) :
    List Nat × Option Err × bufferedReader :=
  match br.data.findIdx? (· = d) with
  | none => (br.data, some .eof, { br with data := [] })
  | some i => (br.data.take i, none, { br with data := br.data.drop i })

/-- The search loop of `readTillDelimiters` for a multi-byte delimiter:
read up to the first byte of the delimiter, peek the full delimiter length,
stop when it matches, otherwise consume one byte and continue. The fuel is
at least `br.data.length + 1`, making the fuel-exhaustion branch
unreachable. -/
def readTillDelimsLoop (d0 : Nat) (delims : List Nat) :
    Nat → bufferedReader → List Nat → List Nat × Option Err × bufferedReader
  | 0, br, acc => (acc, some .eof, br)
  | fuel + 1, br, acc =>
    let (read, e, br') := br.readTillDelimiter d0
    match e with
    | some er => (acc, some er, br')
    | none =>
      if br'.data.length < delims.length then (acc ++ read, some .eof, br')
      else if br'.data.take delims.length = delims then (acc ++ read, none, br')
      else
        match br'.data with
        | [] => (acc ++ read, some .eof, br')
        | b :: rest =>
          readTillDelimsLoop d0 delims fuel { br' with data := rest } (acc ++ read ++ [b])

/-- `readTillDelimiters`: dispatch on the delimiter length as the source
does. -/
def bufferedReader.readTillDelimiters (br : bufferedReader) (delims : List Nat) :
    List Nat × Option Err × bufferedReader :=
  match delims with
  | [] => ([], none, br)
  | [d] => br.readTillDelimiter d
  | d :: _ => readTillDelimsLoop d delims (br.data.length + 1) br []

/-- `ReadText`: read up to the encoding's termination bytes (recording any
error), fold in one extra byte for BOM-less UTF-16 text, then discard the
termination bytes. -/
def bufferedReader.ReadText (br : bufferedReader) (encoding : Encoding) :
    List Nat × bufferedReader :=
  if br.err.isSome then ([], br)
  else
    let (text, e, br₁) := br.readTillDelimiters encoding.terminationBytes
    let br₂ := { br₁ with err := e }
    let (text', br₃) :=
      if encoding.Equals EncodingUTF16 && !(text == bom) then
        let (b, brx) := br₂.ReadByte
        (text ++ [b], brx)
      else (text, br₂)
    (text', br₃.Discard encoding.terminationBytes.length)

/-! ## Text decoding (src/unnamed/part_003)

`decodeText` feeds the parsed frames' string fields; the x/text decoders it
relies on are modelled here (BOM dispatch, raw fallback on a decode error,
and the UTF-16 replacement-character-stripping hack). -/

/-- Strip `suffix` from the end of `l` when present (`bytes.TrimSuffix`). -/
def trimSuffix (l suffix : List Nat) : List Nat :=
  if suffix.isSuffixOf l then l.take (l.length - suffix.length) else l

/-- Pair up bytes into big-endian 16-bit code units; a trailing odd byte
decodes to the replacement character, as the x/text UTF-16 decoder does. -/
def utf16Units : List Nat → List Nat
  | b1 :: b2 :: rest => ((b1 % 256) * 256 + b2 % 256) :: utf16Units rest
  | [_] => [0xFFFD]
  | [] => []

/-- Combine UTF-16 code units, pairing surrogates; unpaired surrogates
decode to the replacement character. -/
def utf16Combine : List Nat → List Nat
  | [] => []
  | [u] =>
    if 0xD800 ≤ u ∧ u ≤ 0xDFFF then [0xFFFD] else [u]
  | u :: u2 :: rest2 =>
    if 0xD800 ≤ u ∧ u ≤ 0xDBFF then
      if 0xDC00 ≤ u2 ∧ u2 ≤ 0xDFFF then
        (0x10000 + (u - 0xD800) * 1024 + (u2 - 0xDC00)) :: utf16Combine rest2
      else 0xFFFD :: utf16Combine (u2 :: rest2)
    else if 0xDC00 ≤ u ∧ u ≤ 0xDFFF then 0xFFFD :: utf16Combine (u2 :: rest2)
    else u :: utf16Combine (u2 :: rest2)

/-- Decode big-endian UTF-16 bytes into a UTF-8 Go string. -/
def utf16BEDecode (src : List Nat) : List Nat :=
  utf8EncodeCP (utf16Combine (utf16Units src))

/-- Decode little-endian UTF-16 bytes into a UTF-8 Go string. -/
def utf16LEDecode (src : List Nat) : List Nat :=
  utf16BEDecode ((src.toChunks 2).map List.reverse).flatten

/-- Remove every UTF-8 replacement-character sequence, the
`bytes.ReplaceAll(result, [0xEF,0xBF,0xBD], [])` hack for UTF-16 text. -/
def stripReplacementChar : List Nat → List Nat
  | 0xEF :: 0xBF :: 0xBD :: rest => stripReplacementChar rest
  | b :: rest => b :: stripReplacementChar rest
  | [] => []

/-- `decodeText`: trim the termination bytes, pass UTF-8 through, map a bare
BOM to the empty string, and otherwise run the decoder selected by
`resolveXEncoding` with the source's BOM dispatch; a decoder error (the
BOM-expecting UTF-16 decoder on BOM-less input) falls back to the raw
bytes. -/
def decodeText (src : List Nat) (frm : Encoding) : List Nat :=
  let src := trimSuffix src frm.terminationBytes
  if frm.Equals EncodingUTF8 then src
  else if frm.Equals EncodingUTF16 && src == bom then []
  else
    match frm.key with
    | 0 => utf8EncodeCP src
    | 1 =>
      let decoded :=
        if decide (src.length > 2) && src.take 2 == bom then
          some (utf16LEDecode (src.drop 2))
        else if src.take 2 == bomBE then some (utf16BEDecode (src.drop 2))
        else none
      match decoded with
      | some r => stripReplacementChar r
      | none => src
    | 2 => utf16BEDecode src
    | _ => src

/-! ## Dedicated frame body parsers (src/comment_frame.go,
src/synchronised_lyrics_frame.go, src/unnamed/part_004) -/

/-- `parseCommentFrame`: encoding byte, 3 language bytes, terminated
description, then the rest of the body as the comment text. -/
def parseCommentFrame (input : List Nat) : Except Err CommentFrame :=
  let (encByte, br) := (⟨input, none⟩ : bufferedReader).ReadByte
  let encoding := getEncoding encByte
  let (language, br) := br.Next 3
  let (description, br) := br.ReadText encoding
  match br.err with
  | some e => .error e
  | none =>
    let (text, _) := br.ReadAll
    .ok
      { encoding := encoding
        language := language
        description := decodeText description encoding
        text := decodeText text encoding }

/-- `parseUnsynchronisedLyricsFrame`: encoding byte, 3 language bytes,
terminated content descriptor, then the rest of the body as the lyrics. -/
def parseUnsynchronisedLyricsFrame (input : List Nat) :
    Except Err UnsynchronisedLyricsFrame :=
  let (encByte, br) := (⟨input, none⟩ : bufferedReader).ReadByte
  let encoding := getEncoding encByte
  let (language, br) := br.Next 3
  let (contentDescriptor, br) := br.ReadText encoding
  match br.err with
  | some e => .error e
  | none =>
    let (lyrics, _) := br.ReadAll
    .ok
      { encoding := encoding
        language := language
        contentDescriptor := decodeText contentDescriptor encoding
        lyrics := decodeText lyrics encoding }

/-- The entry loop of `parseSynchronisedLyricsFrame`: read a terminated
text, skip the termination bytes, then read a 4-byte timestamp. A failure
while searching for the delimiters breaks the loop successfully; a short
timestamp read leaves `Next` returning nil and `binary.BigEndian.Uint32`
panics on it (`Err.runtimePanic`). The fuel is at least
`br.data.length + 1`, making the fuel-exhaustion branch unreachable. -/
def syltEntriesLoop (encoding : Encoding) :
    Nat → bufferedReader → List SynchronizedText →
    Except Err (List SynchronizedText)
  | 0, _, acc => .ok acc.reverse
  | fuel + 1, br, acc =>
    let (textLyric, e, br₁) := br.readTillDelimiters encoding.terminationBytes
    match e with
    | some _ => .ok acc.reverse
    | none =>
      let (_, br₂) := br₁.Next encoding.terminationBytes.length
      let (timeStamp, br₃) := br₂.Next 4
      if timeStamp.length < 4 then .error .runtimePanic
      else
        let t : SynchronizedText :=
          { text := decodeText textLyric encoding
            timestamp := (timeStamp.getD 0 0) * 2 ^ 24 + (timeStamp.getD 1 0) * 2 ^ 16 +
              (timeStamp.getD 2 0) * 2 ^ 8 + timeStamp.getD 3 0 }
        syltEntriesLoop encoding fuel br₃ (t :: acc)

/-- `parseSynchronisedLyricsFrame`: encoding byte, 3 language bytes,
timestamp format byte, content type byte, terminated descriptor, then the
repeated synchronized text entries. -/
def parseSynchronisedLyricsFrame (input : List Nat) :
    Except Err SynchronisedLyricsFrame :=
  let (encByte, br) := (⟨input, none⟩ : bufferedReader).ReadByte
  let encoding := getEncoding encByte
  let (language, br) := br.Next 3
  let (timestampFormat, br) := br.ReadByte
  let (contentType, br) := br.ReadByte
  let (contentDescriptor, br) := br.ReadText encoding
  match br.err with
  | some e => .error e
  | none =>
    match syltEntriesLoop encoding (br.data.length + 1) br [] with
    | .error e => .error e
    | .ok s =>
      .ok
        { encoding := encoding
          language := language
          timestampFormat := timestampFormat
          contentType := contentType
          contentDescriptor := decodeText contentDescriptor encoding
          synchronizedTexts := s }

/-! ## Tag header parsing and Tag.parse (src/unnamed/part_002, src/parse.go) -/

/-- Size in bytes of an ID3v2 tag header. -/
def tagHeaderSize : Nat := 10

/-- The `"ID3"` marker bytes. -/
def id3Identifier : List Nat := [73, 68, 51]

/-- `isID3Tag`. -/
def isID3Tag (data : List Nat) : Bool :=
  data.length == id3Identifier.length && data == id3Identifier

/-- The parsed tag header: frame-area size and version. -/
structure tagHeader where
  framesSize : Nat
  version : Nat
deriving DecidableEq

/-- `parseHeader`: a single `rd.Read` into a 10-byte buffer is modelled as
yielding `min (input.length) 10` bytes, with `io.EOF` exactly when the
source is empty. Fewer than 10 bytes is `ErrSmallHeaderSize`; a missing
`"ID3"` marker is `ErrNoTag`; otherwise the version byte and the synch-safe
frame-area size are extracted. -/
def parseHeader (input : List Nat) : Except Err tagHeader :=
  if input.length = 0 then .error .eof
  else if min input.length tagHeaderSize < tagHeaderSize then .error .smallHeaderSize
  else
    let data := input.take tagHeaderSize
    if !isID3Tag (data.take 3) then .error .noTag
    else
      match parseSize (data.drop 6) true with
      | .error e => .error e
      | .ok size => .ok ⟨size, data.getD 3 0⟩

/-- `Tag.parse`: a missing tag (`ErrNoTag`) or immediate EOF initializes an
empty v4 tag; other header errors propagate (the Go wrapping with
`fmt.Errorf` keeps the wrapped error value); a version below 3 is
unsupported; otherwise the tag is initialized from the header and, when
`opts.parse` is set, the frame scan `parseFrames` — supplied here as the
parameter `pfi` — runs over the remaining bytes. -/
def Tag.parse {α : Type}
    (pfi : Tag α → List Nat → Options → Except Err (Tag α))
    (tag : Tag α) (input : List Nat) (opts : Options) : Except Err (Tag α) :=
  match parseHeader input with
  | .error e =>
    if e = Err.noTag ∨ e = Err.eof then .ok (tag.init 0 4)
    else .error e
  | .ok header =>
    if header.version < 3 then .error .unsupportedVersion
    else
      let tag := tag.init (tagHeaderSize + header.framesSize) header.version
      if !opts.parse then .ok tag
      else pfi tag (input.drop tagHeaderSize) opts

/-- The amended write precondition for C2: only the UFID variant needs one —
its owner identifier must be ASCII, so that the raw bytes `WriteTo` emits
for the owner agree with the ISO-8859-1 size that `Size` measures. -/
def writeSizePrecond : Framer → Prop
  | .ufid uf => ∀ b ∈ uf.ownerIdentifier, b < 128
  | _ => True

/-- The only error a reader operation ever records is EOF. -/
def eofOnly (e : Option Err) : Prop :=
  e = none ∨ e = some .eof

/-! ## Helper lemmas -/

/-- Shifting a masked value right commutes with shifting the mask. -/
theorem and_shiftLeft_shiftRight (x m k : Nat) :
    (x &&& (m <<< k)) >>> k = (x >>> k) &&& m := by
  apply Nat.eq_of_testBit_eq
  intro i
  simp [Nat.testBit_shiftRight, Nat.testBit_and, Nat.testBit_shiftLeft,
    Nat.add_sub_cancel_left, Nat.le_add_right]

/-- The byte extracted by one synch-safe writer step is the 7-bit digit at
bit 25 of the state. -/
theorem synchSafeByteStep (x : Nat) :
    ((x &&& synchSafeMask) >>> (3 * 8 + 1)) % 256 = x / 2 ^ 25 % 128 := by
  have hmask : synchSafeMask = 127 <<< 25 := by decide
  have h1 : (x &&& (127 <<< 25)) >>> 25 = (x >>> 25) &&& 127 :=
    and_shiftLeft_shiftRight x 127 25
  have h2 : (x >>> 25) &&& 127 = (x >>> 25) % 128 := by
    have := Nat.and_pow_two_sub_one_eq_mod (x >>> 25) 7
    norm_num at this
    exact this
  have h3 : (3 : Nat) * 8 + 1 = 25 := by norm_num
  rw [hmask, h3, h1, h2, Nat.shiftRight_eq_div_pow]
  exact Nat.mod_eq_of_lt (lt_trans (Nat.mod_lt _ (by norm_num)) (by norm_num))

/-- The byte extracted by one raw (non-synch-safe) writer step is the top
byte of the 32-bit state. -/
theorem synchUnsafeByteStep (x : Nat) :
    ((x &&& synchUnsafeMask) >>> (3 * 8)) % 256 = x / 2 ^ 24 % 256 := by
  have hmask : synchUnsafeMask = 255 <<< 24 := by decide
  have h1 : (x &&& (255 <<< 24)) >>> 24 = (x >>> 24) &&& 255 :=
    and_shiftLeft_shiftRight x 255 24
  have h2 : (x >>> 24) &&& 255 = (x >>> 24) % 256 := by
    have := Nat.and_pow_two_sub_one_eq_mod (x >>> 24) 8
    norm_num at this
    exact this
  have h3 : (3 : Nat) * 8 = 24 := by norm_num
  rw [hmask, h3, h1, h2, Nat.shiftRight_eq_div_pow]
  exact Nat.mod_eq_of_lt (Nat.mod_lt _ (by norm_num))

/-- The synch-safe writer emits the four 7-bit digits of a size below
2^28. -/
theorem synchSafeBytesLoop_digits (s : Nat) (h : s < 2 ^ 28) :
    synchSafeBytesLoop 4 ((s <<< 4) % uintMod) =
      [s / 2 ^ 21 % 128, s / 2 ^ 14 % 128, s / 2 ^ 7 % 128, s % 128] := by
  simp only [synchSafeBytesLoop, synchSafeSizeBase, uintMod, synchSafeByteStep,
    Nat.shiftLeft_eq]
  norm_num
  omega

/-- The raw writer emits the four big-endian bytes of a size below 2^32. -/
theorem synchUnsafeBytesLoop_digits (s : Nat) (h : s < 2 ^ 32) :
    synchUnsafeBytesLoop 4 s =
      [s / 2 ^ 24 % 256, s / 2 ^ 16 % 256, s / 2 ^ 8 % 256, s % 256] := by
  simp only [synchUnsafeBytesLoop, synchUnsafeSizeBase, uintMod, synchUnsafeByteStep,
    Nat.shiftLeft_eq]
  norm_num
  omega

/-- A byte below 128 has a clear top bit. -/
theorem and128_eq_zero {b : Nat} (h : b < 128) : b &&& 128 = 0 := by
  have h2 : b &&& 128 = (b.testBit 7).toNat * 128 := by
    have := Nat.and_two_pow b 7
    norm_num at this
    exact this
  rw [h2, Nat.testBit_lt_two_pow (show b < 2 ^ 7 by omega)]
  rfl

/-- For a byte value, the parser's top-bit test is `128 ≤ b`. -/
theorem and128_pos_iff {b : Nat} (hb : b < 256) : 0 < b &&& 128 ↔ 128 ≤ b := by
  constructor
  · intro h
    by_contra hlt
    rw [and128_eq_zero (by omega)] at h
    exact Nat.lt_irrefl 0 h
  · intro h
    have h2 : b &&& 128 = (b.testBit 7).toNat * 128 := by
      have := Nat.and_two_pow b 7
      norm_num at this
      exact this
    have h3 : b.testBit 7 = true := by
      rw [Nat.testBit_to_div_mod]
      simp only [decide_eq_true_eq]
      omega
    rw [h2, h3]
    norm_num

/-- Shift-or on a 7-bit digit is multiply-add. -/
theorem shiftLeft7_or {b : Nat} (hb : b < 128) (a : Nat) :
    a <<< 7 ||| b = a * 128 + b := by
  rw [Nat.shiftLeft_eq]
  have h := Nat.mul_add_lt_is_or (show b < 2 ^ 7 by omega) a
  norm_num at h ⊢
  rw [mul_comm a 128]
  exact h.symm

/-- Shift-or on an 8-bit digit is multiply-add. -/
theorem shiftLeft8_or {b : Nat} (hb : b < 256) (a : Nat) :
    a <<< 8 ||| b = a * 256 + b := by
  rw [Nat.shiftLeft_eq]
  have h := Nat.mul_add_lt_is_or (show b < 2 ^ 8 by omega) a
  norm_num at h ⊢
  rw [mul_comm a 256]
  exact h.symm

/-- The synch-safe parse loop over bytes with clear top bits succeeds and
accumulates base-128 digits. -/
theorem parseSizeLoop_true_digits (ds : List Nat) (hds : ∀ b ∈ ds, b < 128) :
    ∀ acc, parseSizeLoop true ds acc = .ok (ds.foldl (fun a b => a * 128 + b) acc) := by
  induction ds with
  | nil => intro acc; rfl
  | cons b rest ih =>
    intro acc
    have hb : b < 128 := hds b (by simp)
    simp only [parseSizeLoop, and128_eq_zero hb, List.foldl_cons, synchSafeSizeBase]
    norm_num
    rw [shiftLeft7_or hb]
    exact ih (fun x hx => hds x (by simp [hx])) _

/-- The raw parse loop never fails and accumulates base-256 digits. -/
theorem parseSizeLoop_false_digits (ds : List Nat) (hds : ∀ b ∈ ds, b < 256) :
    ∀ acc, parseSizeLoop false ds acc = .ok (ds.foldl (fun a b => a * 256 + b) acc) := by
  induction ds with
  | nil => intro acc; rfl
  | cons b rest ih =>
    intro acc
    have hb : b < 256 := hds b (by simp)
    simp only [parseSizeLoop, List.foldl_cons, synchUnsafeSizeBase]
    norm_num
    rw [shiftLeft8_or hb]
    exact ih (fun x hx => hds x (by simp [hx])) _

/-- The raw parse loop never yields the size-format rejection, whatever the
bytes are. -/
theorem parseSizeLoop_false_ok (ds : List Nat) :
    ∀ acc, ∃ v, parseSizeLoop false ds acc = .ok v := by
  induction ds with
  | nil => intro acc; exact ⟨acc, rfl⟩
  | cons b rest ih =>
    intro acc
    simp only [parseSizeLoop]
    norm_num
    exact ih _

/-- The synch-safe parse loop rejects as soon as some byte has its top bit
set. -/
theorem parseSizeLoop_true_top_bit (ds : List Nat) (hbytes : ∀ b ∈ ds, b < 256)
    (hbit : ∃ b ∈ ds, 128 ≤ b) :
    ∀ acc, parseSizeLoop true ds acc = .error .invalidSizeFormat := by
  induction ds with
  | nil => exact absurd hbit (by simp)
  | cons b rest ih =>
    intro acc
    by_cases hb : 128 ≤ b
    · have : 0 < b &&& 128 := (and128_pos_iff (hbytes b (by simp))).2 hb
      simp only [parseSizeLoop]
      rw [if_pos (by simp [this])]
    · have hlow : b < 128 := by omega
      have htail : ∃ x ∈ rest, 128 ≤ x := by
        obtain ⟨x, hx, hxe⟩ := hbit
        rcases List.mem_cons.1 hx with rfl | hx2
        · exact absurd hxe hb
        · exact ⟨x, hx2, hxe⟩
      simp only [parseSizeLoop, and128_eq_zero hlow]
      norm_num
      exact ih (fun x hx => hbytes x (by simp [hx])) htail _

/-! ## Claim theorems -/

/-- C3: the size codec round-trips: every size below 2^28 written synch-safe
parses back with `synchSafe = true`, and every size below 2^32 written raw
parses back with `synchSafe = false`. -/
theorem parseSize_writeBytesSize_round_trip :
    (∀ s : Nat, s < 2 ^ 28 → ∃ out,
      writeSynchSafeBytesSize s = .ok out ∧ parseSize out true = .ok s) ∧
    (∀ s : Nat, s < 2 ^ 32 → ∃ out,
      writeSynchUnsafeBytesSize s = .ok out ∧ parseSize out false = .ok s) := by
  constructor
  · intro s hs
    refine ⟨synchSafeBytesLoop 4 ((s <<< 4) % uintMod), ?_, ?_⟩
    · unfold writeSynchSafeBytesSize
      rw [if_neg (by unfold synchSafeMaxSize; omega)]
      rfl
    · rw [synchSafeBytesLoop_digits s hs]
      have hd : ∀ b ∈ [s / 2 ^ 21 % 128, s / 2 ^ 14 % 128, s / 2 ^ 7 % 128, s % 128],
          b < 128 := by
        intro b hb
        simp only [List.mem_cons, List.mem_singleton] at hb
        rcases hb with rfl | rfl | rfl | rfl | h
        all_goals first
          | exact Nat.mod_lt _ (by norm_num)
          | exact absurd h (by simp)
      unfold parseSize
      rw [if_neg (by simp [id3SizeLen])]
      rw [parseSizeLoop_true_digits _ hd 0]
      simp only [List.foldl_cons, List.foldl_nil]
      congr 1
      omega
  · intro s hs
    refine ⟨synchUnsafeBytesLoop 4 s, ?_, ?_⟩
    · unfold writeSynchUnsafeBytesSize
      rw [if_neg (by unfold synchUnsafeMaxSize; omega)]
      rfl
    · rw [synchUnsafeBytesLoop_digits s hs]
      have hd : ∀ b ∈ [s / 2 ^ 24 % 256, s / 2 ^ 16 % 256, s / 2 ^ 8 % 256, s % 256],
          b < 256 := by
        intro b hb
        simp only [List.mem_cons, List.mem_singleton] at hb
        rcases hb with rfl | rfl | rfl | rfl | h
        all_goals first
          | exact Nat.mod_lt _ (by norm_num)
          | exact absurd h (by simp)
      unfold parseSize
      rw [if_neg (by simp [id3SizeLen])]
      rw [parseSizeLoop_false_digits _ hd 0]
      simp only [List.foldl_cons, List.foldl_nil]
      congr 1
      omega

/-- Witness for C3 at the repository's own test vectors: 15351 synch-safe
and 65535 raw. -/
theorem parseSize_writeBytesSize_round_trip_witness :
    (∃ out, writeSynchSafeBytesSize 15351 = .ok out ∧ parseSize out true = .ok 15351) ∧
    (∃ out, writeSynchUnsafeBytesSize 65535 = .ok out ∧ parseSize out false = .ok 65535) :=
  ⟨parseSize_writeBytesSize_round_trip.1 15351 (by norm_num),
   parseSize_writeBytesSize_round_trip.2 65535 (by norm_num)⟩

/-- C4: on inputs of at most 4 bytes containing a byte with the top bit set,
parsing with `synchSafe = true` yields exactly the size-format rejection,
while parsing the same bytes with `synchSafe = false` never does. -/
theorem parseSize_top_bit_rejection (data : List Nat) (hlen : data.length ≤ 4)
    (hbytes : ∀ b ∈ data, b < 256) (hbit : ∃ b ∈ data, 128 ≤ b) :
    parseSize data true = .error .invalidSizeFormat ∧
    parseSize data false ≠ .error .invalidSizeFormat := by
  constructor
  · unfold parseSize
    rw [if_neg (by simp [id3SizeLen]; omega)]
    exact parseSizeLoop_true_top_bit data hbytes hbit 0
  · unfold parseSize
    rw [if_neg (by simp [id3SizeLen]; omega)]
    obtain ⟨v, hv⟩ := parseSizeLoop_false_ok data 0
    rw [hv]
    intro h
    exact Except.noConfusion h

/-- Witness for C4 at the repository's test vector `[0, 0, 255, 255]`. -/
theorem parseSize_top_bit_rejection_witness :
    parseSize [0, 0, 255, 255] true = .error .invalidSizeFormat ∧
    parseSize [0, 0, 255, 255] false ≠ .error .invalidSizeFormat :=
  parseSize_top_bit_rejection [0, 0, 255, 255] (by norm_num)
    (by decide) (by decide)

/-- C9: `getEncoding` is total and never indexes out of range: every key at
most 3 hits a live slot of `encodings`; keys 0–3 resolve to ISO-8859-1,
UTF-16-with-BOM, UTF-16BE and UTF-8 respectively, and every larger key
resolves to UTF-8. -/
theorem getEncoding_total_spec :
    (∀ key : Nat, key ≤ 3 → (encodings.get? key).isSome = true) ∧
    getEncoding 0 = EncodingISO ∧ getEncoding 1 = EncodingUTF16 ∧
    getEncoding 2 = EncodingUTF16BE ∧ getEncoding 3 = EncodingUTF8 ∧
    (∀ key : Nat, 3 < key → getEncoding key = EncodingUTF8) := by
  refine ⟨?_, by decide, by decide, by decide, by decide, ?_⟩
  · intro key hk
    interval_cases key <;> decide
  · intro key hk
    unfold getEncoding
    rw [if_pos hk]

/-- Witness for C9 at keys 2 and 200. -/
theorem getEncoding_total_spec_witness :
    (encodings.get? 2).isSome = true ∧ getEncoding 200 = EncodingUTF8 :=
  ⟨getEncoding_total_spec.1 2 (by norm_num),
   getEncoding_total_spec.2.2.2.2.2 200 (by norm_num)⟩

/-- C1 (divergence evidence): for every id in the fixed exclusion list the
routing predicate returns `true`, not `false` — the Go switch case for these
ids has an empty body and does not fall through — so `Tag.AddFrame` stores
such frames in the sequence store, not the singular map; only the two legacy
ids IPLS and RVAD are routed to the singular map. -/
theorem mustFrameBeInSequence_excluded_ids_divergence :
    mustFrameBeInSequence "MCDI" = true ∧ mustFrameBeInSequence "ETCO" = true ∧
    mustFrameBeInSequence "SYTC" = true ∧ mustFrameBeInSequence "RVRB" = true ∧
    mustFrameBeInSequence "MLLT" = true ∧ mustFrameBeInSequence "PCNT" = true ∧
    mustFrameBeInSequence "RBUF" = true ∧ mustFrameBeInSequence "POSS" = true ∧
    mustFrameBeInSequence "OWNE" = true ∧ mustFrameBeInSequence "SEEK" = true ∧
    mustFrameBeInSequence "ASPI" = true ∧
    mustFrameBeInSequence "IPLS" = false ∧ mustFrameBeInSequence "RVAD" = false ∧
    (Tag.AddFrame (fun _ => "") (⟨[], [], EncodingUTF8, 0, 4⟩ : Tag Unit) "MCDI"
        (some ())).sequences = [("MCDI", ⟨[()]⟩)] ∧
    (Tag.AddFrame (fun _ => "") (⟨[], [], EncodingUTF8, 0, 4⟩ : Tag Unit) "MCDI"
        (some ())).frames = [] := by
  decide

/-- C10: `Tag.AddFrame` with an empty id or a nil frame is a no-op: the tag
value (all of its fields) and its frame count are unchanged. -/
theorem Tag_AddFrame_noop {α : Type} (uid : α → String) (tag : Tag α)
    (id : String) (f : Option α) :
    Tag.AddFrame uid tag "" f = tag ∧ Tag.AddFrame uid tag id none = tag ∧
    (Tag.AddFrame uid tag "" f).Count = tag.Count ∧
    (Tag.AddFrame uid tag id none).Count = tag.Count := by
  have h1 : Tag.AddFrame uid tag "" f = tag := by
    simp [Tag.AddFrame]
  have h2 : Tag.AddFrame uid tag id none = tag := by
    simp [Tag.AddFrame]
  exact ⟨h1, h2, by rw [h1], by rw [h2]⟩

/-- C6 (amended part): encoding any text under the BOM-carrying UTF-16
encoding succeeds, the output starts with the (big-endian) byte-order mark,
and it always ends in a zero byte — a single zero byte is appended exactly
when the encoder output does not already end in one. -/
theorem encodeWriteText_utf16_bom_and_zero (src : List Nat) :
    ∃ out, encodeWriteTextBytes src EncodingUTF16 = .ok out ∧
      out.take 2 = bomBE ∧ out.getLast? = some 0 ∧
      (((bomBE ++ utf16BE (utf8Decode src)).getLast? = some 0 ∧
          out = bomBE ++ utf16BE (utf8Decode src)) ∨
        ((bomBE ++ utf16BE (utf8Decode src)).getLast? ≠ some 0 ∧
          out = (bomBE ++ utf16BE (utf8Decode src)) ++ [0])) := by
  have henc : xEncodeString EncodingUTF16.key src =
      .ok (bomBE ++ utf16BE (utf8Decode src)) := rfl
  by_cases hlast : (bomBE ++ utf16BE (utf8Decode src)).getLast? = some 0
  · have hbeq : ((bomBE ++ utf16BE (utf8Decode src)).getLast? == some 0) = true :=
      beq_iff_eq.mpr hlast
    refine ⟨bomBE ++ utf16BE (utf8Decode src), ?_, ?_, hlast, Or.inl ⟨hlast, rfl⟩⟩
    · unfold encodeWriteTextBytes
      rw [if_neg (by decide), henc]
      dsimp only
      simp only [hbeq]
      rw [if_neg (by decide)]
    · have : bomBE.length = 2 := rfl
      rw [← this, List.take_left]
  · have hbeq : ((bomBE ++ utf16BE (utf8Decode src)).getLast? == some 0) = false :=
      beq_eq_false_iff_ne.mpr hlast
    refine ⟨(bomBE ++ utf16BE (utf8Decode src)) ++ [0], ?_, ?_, ?_, Or.inr ⟨hlast, rfl⟩⟩
    · unfold encodeWriteTextBytes
      rw [if_neg (by decide), henc]
      dsimp only
      simp only [hbeq]
      rw [if_pos (by decide)]
    · rw [List.append_assoc]
      have : bomBE.length = 2 := rfl
      rw [← this, List.take_left]
    · simp

/-- C6 (counterexample to the claim as stated): for the text "A" the output
is `FE FF 00 41 00` — it does not end in a pair of zero bytes; only a single
zero byte was appended. -/
theorem encodeWriteText_utf16_no_zero_pair_counterexample :
    encodeWriteTextBytes [65] EncodingUTF16 = .ok [0xFE, 0xFF, 0, 65, 0] ∧
    ([0, 0].isSuffixOf [0xFE, 0xFF, 0, 65, 0]) = false := by
  decide

/-- `indexOfFrameAux` returns -1 when no frame matches the key. -/
theorem indexOfFrameAux_no_match {α : Type} (uid : α → String) (f : α) :
    ∀ (fs : List α) (k : Nat), (∀ x ∈ fs, uid x ≠ uid f) →
      indexOfFrameAux uid f fs k = -1 := by
  intro fs
  induction fs with
  | nil => intro k _; rfl
  | cons x rest ih =>
    intro k h
    have hx : uid f ≠ uid x := fun he => h x (by simp) he.symm
    simp only [indexOfFrameAux, if_neg hx]
    exact ih (k + 1) (fun y hy => h y (by simp [hy]))

/-- When `indexOfFrameAux` does not return -1, it returns the offset `k`
plus the position of a matching frame. -/
theorem indexOfFrameAux_match {α : Type} (uid : α → String) (f : α) :
    ∀ (fs : List α) (k : Nat), indexOfFrameAux uid f fs k ≠ -1 →
      ∃ i, indexOfFrameAux uid f fs k = Int.ofNat (k + i) ∧ i < fs.length ∧
        uid (fs.getD i f) = uid f := by
  intro fs
  induction fs with
  | nil => intro k h; exact absurd rfl h
  | cons x rest ih =>
    intro k h
    by_cases hx : uid f = uid x
    · exact ⟨0, by simp [indexOfFrameAux, if_pos hx], by simp, by
        simpa [List.getD] using hx.symm⟩
    · simp only [indexOfFrameAux, if_neg hx] at h ⊢
      obtain ⟨i, hi, hlen, hu⟩ := ih (k + 1) h
      exact ⟨i + 1, by rw [hi]; congr 1; omega, by simp; omega, by
        simpa [List.getD] using hu⟩

/-- `indexOfFrameAux` finds the FIRST matching position. -/
theorem indexOfFrameAux_first_match {α : Type} (uid : α → String) (f : α) :
    ∀ (fs : List α) (i k : Nat), i < fs.length → uid (fs.getD i f) = uid f →
      (∀ j, j < i → uid (fs.getD j f) ≠ uid f) →
      indexOfFrameAux uid f fs k = Int.ofNat (k + i) := by
  intro fs
  induction fs with
  | nil => intro i k h; simp at h
  | cons x rest ih =>
    intro i k hlen hmatch hfirst
    match i with
    | 0 =>
      have hx : uid f = uid x := by simpa [List.getD] using hmatch.symm
      simp [indexOfFrameAux, if_pos hx]
    | i' + 1 =>
      have hx : uid f ≠ uid x := by
        intro he
        exact hfirst 0 (by omega) (by simpa [List.getD] using he.symm)
      simp only [indexOfFrameAux, if_neg hx]
      rw [ih i' (k + 1) (by simpa using hlen) (by simpa [List.getD] using hmatch)
        (fun j hj => by simpa [List.getD] using hfirst (j + 1) (by omega))]
      congr 1
      omega

/-- Replacing a frame by one with the same key leaves the key list
unchanged. -/
theorem map_uid_set {α : Type} (uid : α → String) (f : α) :
    ∀ (fs : List α) (i : Nat), i < fs.length → uid (fs.getD i f) = uid f →
      (fs.set i f).map uid = fs.map uid := by
  intro fs
  induction fs with
  | nil => intro i h; simp at h
  | cons x rest ih =>
    intro i hlen hmatch
    match i with
    | 0 =>
      simp only [List.set, List.map_cons, List.map]
      rw [show uid f = uid x from by simpa [List.getD] using hmatch.symm]
    | i' + 1 =>
      simp only [List.set, List.map_cons]
      rw [ih i' (by simpa using hlen) (by simpa [List.getD] using hmatch)]

/-- When `indexOfFrameAux` returns -1, no frame matches the key. -/
theorem indexOfFrameAux_eq_neg_one {α : Type} (uid : α → String) (f : α) :
    ∀ (fs : List α) (k : Nat), indexOfFrameAux uid f fs k = -1 →
      ∀ x ∈ fs, uid x ≠ uid f := by
  intro fs
  induction fs with
  | nil => intro k _ x hx; simp at hx
  | cons y rest ih =>
    intro k h x hx
    by_cases hy : uid f = uid y
    · simp only [indexOfFrameAux, if_pos hy] at h
      cases h
    · simp only [indexOfFrameAux, if_neg hy] at h
      rcases List.mem_cons.1 hx with rfl | hx2
      · exact fun he => hy he.symm
      · exact ih (k + 1) h x hx2

/-- C5: `sequence.AddFrame` keeps identity keys pairwise distinct; adding a
frame whose key occurs at (first) position `i` replaces the entry there in
place with the sequence length unchanged; adding a frame with a fresh key
appends it, growing the length by one. -/
theorem sequence_AddFrame_spec {α : Type} (uid : α → String) (s : sequence α) (f : α) :
    ((s.frames.map uid).Nodup → ((sequence.AddFrame uid s f).frames.map uid).Nodup) ∧
    (∀ i, i < s.frames.length → uid (s.frames.getD i f) = uid f →
      (∀ j, j < i → uid (s.frames.getD j f) ≠ uid f) →
      (sequence.AddFrame uid s f).frames = s.frames.set i f ∧
      (sequence.AddFrame uid s f).Count = s.Count) ∧
    ((∀ x ∈ s.frames, uid x ≠ uid f) →
      (sequence.AddFrame uid s f).frames = s.frames ++ [f] ∧
      (sequence.AddFrame uid s f).Count = s.Count + 1) := by
  have haddEq : ∀ r : Int, indexOfFrameAux uid f s.frames 0 = r →
      sequence.AddFrame uid s f =
        (if r = -1 then ⟨s.frames ++ [f]⟩ else ⟨s.frames.set r.toNat f⟩) := by
    intro r hr
    unfold sequence.AddFrame indexOfFrame
    rw [hr]
  refine ⟨?_, ?_, ?_⟩
  · intro hnodup
    by_cases hm : ∀ x ∈ s.frames, uid x ≠ uid f
    · have hidx := indexOfFrameAux_no_match uid f s.frames 0 hm
      rw [haddEq (-1) hidx, if_pos rfl]
      rw [List.map_append]
      refine List.Nodup.append hnodup (by simp) ?_
      intro a ha hb
      simp only [List.map_cons, List.map_nil, List.mem_singleton] at hb
      obtain ⟨x, hx, rfl⟩ := List.mem_map.1 ha
      exact hm x hx hb
    · have hne : indexOfFrameAux uid f s.frames 0 ≠ -1 := fun hc =>
        hm (indexOfFrameAux_eq_neg_one uid f s.frames 0 hc)
      obtain ⟨i, hi, hlen, hu⟩ := indexOfFrameAux_match uid f s.frames 0 hne
      rw [haddEq (Int.ofNat (0 + i)) hi]
      rw [if_neg (show ¬(Int.ofNat (0 + i) = (-1 : Int)) from fun hc => by
      rw [Int.ofNat_eq_natCast] at hc
      omega)]
      rw [show (Int.ofNat (0 + i)).toNat = i by simp]
      rw [map_uid_set uid f s.frames i hlen hu]
      exact hnodup
  · intro i hlen hmatch hfirst
    have hidx := indexOfFrameAux_first_match uid f s.frames i 0 hlen hmatch hfirst
    rw [haddEq (Int.ofNat (0 + i)) hidx]
    rw [if_neg (show ¬(Int.ofNat (0 + i) = (-1 : Int)) from fun hc => by
      rw [Int.ofNat_eq_natCast] at hc
      omega)]
    rw [show (Int.ofNat (0 + i)).toNat = i by simp]
    exact ⟨rfl, by simp [sequence.Count]⟩
  · intro hm
    have hidx := indexOfFrameAux_no_match uid f s.frames 0 hm
    rw [haddEq (-1) hidx, if_pos rfl]
    exact ⟨rfl, by simp [sequence.Count]⟩

/-- Witness for C5: with keys "a"/"b"/"c" drawn from ranges, adding 27 (key
"b") to `[3, 15]` replaces position 1 keeping length 2, and adding 500 (key
"c") appends. -/
theorem sequence_AddFrame_spec_witness :
    ((sequence.AddFrame (fun n : Nat => if n < 10 then "a" else if n < 100 then "b" else "c")
        ⟨[3, 15]⟩ 27).frames = [3, 27] ∧
      (sequence.AddFrame (fun n : Nat => if n < 10 then "a" else if n < 100 then "b" else "c")
        ⟨[3, 15]⟩ 27).Count = 2) ∧
    ((sequence.AddFrame (fun n : Nat => if n < 10 then "a" else if n < 100 then "b" else "c")
        ⟨[3, 15]⟩ 500).frames = [3, 15, 500] ∧
      (sequence.AddFrame (fun n : Nat => if n < 10 then "a" else if n < 100 then "b" else "c")
        ⟨[3, 15]⟩ 500).Count = 3) := by
  have h1 := (sequence_AddFrame_spec
    (fun n : Nat => if n < 10 then "a" else if n < 100 then "b" else "c")
    ⟨[3, 15]⟩ 27).2.1 1 (by norm_num) (by decide)
    (fun j hj => by interval_cases j; decide)
  have h2 := (sequence_AddFrame_spec
    (fun n : Nat => if n < 10 then "a" else if n < 100 then "b" else "c")
    ⟨[3, 15]⟩ 500).2.2 (by decide)
  refine ⟨⟨?_, ?_⟩, ?_, ?_⟩
  · rw [h1.1]; rfl
  · rw [h1.2]; rfl
  · rw [h2.1]; rfl
  · rw [h2.2]; rfl

/-- Unfolding an `Except` bind against a successful result. -/
theorem bind_ok_iff {β γ : Type} {x : Except Err β} {g : β → Except Err γ} {c : γ} :
    (x >>= g) = .ok c ↔ ∃ b, x = .ok b ∧ g b = .ok c := by
  cases x with
  | error e => simp [Bind.bind, Except.bind]
  | ok b => simp [Bind.bind, Except.bind]

/-- A successful text encoding emits exactly `encodedSize` bytes. -/
theorem encodeWriteTextBytes_length {src : List Nat} {enc : Encoding} {out : List Nat}
    (h : encodeWriteTextBytes src enc = .ok out) : out.length = encodedSize src enc := by
  unfold encodedSize
  by_cases he : enc.Equals EncodingUTF8 = true
  · unfold encodeWriteTextBytes at h
    rw [if_pos he] at h
    rw [if_pos he]
    cases h
    rfl
  · rw [if_neg he, h]

/-- The synch-safe writer loop emits exactly its fuel in bytes. -/
theorem synchSafeBytesLoop_length (n : Nat) : ∀ s, (synchSafeBytesLoop n s).length = n := by
  induction n with
  | zero => intro s; rfl
  | succ k ih => intro s; simp [synchSafeBytesLoop, ih]

/-- The raw writer loop emits exactly its fuel in bytes. -/
theorem synchUnsafeBytesLoop_length (n : Nat) : ∀ s, (synchUnsafeBytesLoop n s).length = n := by
  induction n with
  | zero => intro s; rfl
  | succ k ih => intro s; simp [synchUnsafeBytesLoop, ih]

/-- A successful size write emits 4 bytes in either mode. -/
theorem writeBytesSize_length {size : Nat} {synchSafe : Bool} {out : List Nat}
    (h : writeBytesSize size synchSafe = .ok out) : out.length = 4 := by
  cases synchSafe with
  | false =>
    rw [show writeBytesSize size false = writeSynchUnsafeBytesSize size from rfl] at h
    unfold writeSynchUnsafeBytesSize at h
    split at h
    · cases h
    · cases h
      exact synchUnsafeBytesLoop_length 4 _
  | true =>
    rw [show writeBytesSize size true = writeSynchSafeBytesSize size from rfl] at h
    unfold writeSynchSafeBytesSize at h
    split at h
    · cases h
    · cases h
      exact synchSafeBytesLoop_length 4 _

/-- A successful frame-header write emits the id bytes plus 6. -/
theorem writeFrameHeader_length {id : String} {size : Nat} {synchSafe : Bool}
    {out : List Nat} (h : writeFrameHeader id size synchSafe = .ok out) :
    out.length = (strBytes id).length + 6 := by
  unfold writeFrameHeader at h
  split at h
  · cases h
  · rename_i sb hsb
    cases h
    have h4 := writeBytesSize_length hsb
    simp [List.length_append, h4]

/-- A successful `TextFrame.WriteTo` emits exactly `Size` bytes. -/
theorem TextFrame_WriteTo_length {tf : TextFrame} {out : List Nat}
    (h : tf.WriteTo = .ok out) : out.length = tf.Size := by
  unfold TextFrame.WriteTo at h
  split at h
  · cases h
  · rename_i e he
    cases h
    have := encodeWriteTextBytes_length he
    simp [TextFrame.Size, List.length_append, this]
    omega

/-- A successful embedded text subframe write (4-character id) emits a frame
header plus the subframe body. -/
theorem writeTextSubframe_length {id : String} {tf : TextFrame} {out : List Nat}
    (hid : (strBytes id).length = 4) (h : writeTextSubframe id tf = .ok out) :
    out.length = frameHeaderSize + tf.Size := by
  unfold writeTextSubframe at h
  rw [bind_ok_iff] at h
  obtain ⟨hd, hhd, h⟩ := h
  rw [bind_ok_iff] at h
  obtain ⟨b, hb, h⟩ := h
  cases h
  have h1 := writeFrameHeader_length hhd
  have h2 := TextFrame_WriteTo_length hb
  simp only [List.length_append, h1, h2, hid, frameHeaderSize]

/-- A successful write of the synchronized text entries emits exactly the
summed entry sizes. -/
theorem syncTextsBytes_length {enc : Encoding} :
    ∀ (l : List SynchronizedText) (out : List Nat),
      syncTextsBytes enc l = .ok out → out.length = syncTextsSize enc l := by
  intro l
  induction l with
  | nil =>
    intro out h
    cases h
    rfl
  | cons v rest ih =>
    intro out h
    unfold syncTextsBytes at h
    rw [bind_ok_iff] at h
    obtain ⟨e, he, h⟩ := h
    rw [bind_ok_iff] at h
    obtain ⟨r, hr, h⟩ := h
    cases h
    have h1 := encodeWriteTextBytes_length he
    have h2 := ih r hr
    simp [syncTextsSize, List.length_append, h1, h2,
      SynchronizedText.timestampToBigEndian, be4]
    omega

/-- The fuel-driven UTF-8 decoder is the identity on ASCII byte lists. -/
theorem utf8DecodeAux_ascii :
    ∀ (fuel : Nat) (l : List Nat), l.length ≤ fuel → (∀ b ∈ l, b < 128) →
      utf8DecodeAux fuel l = l := by
  intro fuel
  induction fuel with
  | zero =>
    intro l hl _
    cases l with
    | nil => rfl
    | cons b rest => simp at hl
  | succ n ih =>
    intro l hl hb
    cases l with
    | nil => rfl
    | cons b rest =>
      have hb0 : b < 128 := hb b (by simp)
      have hstep : utf8Step b rest = (b, 1) := by
        unfold utf8Step
        rw [if_pos (show b < 0x80 by omega)]
      simp only [utf8DecodeAux, hstep, List.drop_succ_cons, List.drop_zero]
      rw [ih rest (by simpa using Nat.le_of_succ_le_succ hl)
        (fun x hx => hb x (by simp [hx]))]

/-- `utf8Decode` is the identity on ASCII byte lists. -/
theorem utf8Decode_ascii {l : List Nat} (h : ∀ b ∈ l, b < 128) : utf8Decode l = l :=
  utf8DecodeAux_ascii l.length l le_rfl h

/-- For an ASCII owner string the ISO-8859-1 measured size is the raw byte
length. -/
theorem encodedSize_iso_ascii {owner : List Nat} (h : ∀ b ∈ owner, b < 128) :
    encodedSize owner EncodingISO = owner.length := by
  have hall : owner.all (· < 256) = true := by
    rw [List.all_eq_true]
    intro x hx
    have := h x hx
    simp only [decide_eq_true_eq]
    omega
  have henc : encodeWriteTextBytes owner EncodingISO = .ok owner := by
    unfold encodeWriteTextBytes
    rw [if_neg (by decide)]
    have hx : xEncodeString EncodingISO.key owner = .ok owner := by
      simp only [xEncodeString, EncodingISO, utf8Decode_ascii h, hall, if_true]
    rw [hx]
    dsimp only
    rw [if_neg (by simp [Encoding.Equals, EncodingISO, EncodingUTF16])]
  unfold encodedSize
  rw [if_neg (by decide), henc]

/-- A successful `CommentFrame.WriteTo` emits exactly `Size` bytes. -/
theorem CommentFrame_WriteTo_length {cf : CommentFrame} {out : List Nat}
    (h : cf.WriteTo = .ok out) : out.length = cf.Size := by
  unfold CommentFrame.WriteTo at h
  split at h
  · cases h
  · rw [bind_ok_iff] at h
    obtain ⟨d, hd, h⟩ := h
    rw [bind_ok_iff] at h
    obtain ⟨t, ht, h⟩ := h
    cases h
    have h1 := encodeWriteTextBytes_length hd
    have h2 := encodeWriteTextBytes_length ht
    simp [CommentFrame.Size, List.length_append, h1, h2]
    omega

/-- A successful `PictureFrame.WriteTo` emits exactly `Size` bytes. -/
theorem PictureFrame_WriteTo_length {pf : PictureFrame} {out : List Nat}
    (h : pf.WriteTo = .ok out) : out.length = pf.Size := by
  unfold PictureFrame.WriteTo at h
  rw [bind_ok_iff] at h
  obtain ⟨d, hd, h⟩ := h
  cases h
  have h1 := encodeWriteTextBytes_length hd
  simp [PictureFrame.Size, List.length_append, h1]
  omega

/-- A successful `PopularimeterFrame.WriteTo` emits exactly `Size` bytes. -/
theorem PopularimeterFrame_WriteTo_length {pf : PopularimeterFrame} {out : List Nat}
    (h : pf.WriteTo = .ok out) : out.length = pf.Size := by
  unfold PopularimeterFrame.WriteTo at h
  cases h
  simp [PopularimeterFrame.Size, List.length_append]
  omega

/-- A successful `UFIDFrame.WriteTo` on an ASCII owner emits exactly `Size`
bytes. -/
theorem UFIDFrame_WriteTo_length {uf : UFIDFrame} {out : List Nat}
    (hpre : ∀ b ∈ uf.ownerIdentifier, b < 128)
    (h : uf.WriteTo = .ok out) : out.length = uf.Size := by
  unfold UFIDFrame.WriteTo at h
  cases h
  have h1 := encodedSize_iso_ascii hpre
  simp only [UFIDFrame.Size, EncodingISO, List.length_append, List.length_cons,
    List.length_nil] at h1 ⊢
  omega

/-- A successful `LinkFrame.WriteTo` emits exactly `Size` bytes. -/
theorem LinkFrame_WriteTo_length {lf : LinkFrame} {out : List Nat}
    (h : lf.WriteTo = .ok out) : out.length = lf.Size := by
  unfold LinkFrame.WriteTo at h
  rw [bind_ok_iff] at h
  obtain ⟨e, he, h⟩ := h
  cases h
  have h1 := encodeWriteTextBytes_length he
  simp [LinkFrame.Size, List.length_append, h1]
  omega

/-- A successful `UserDefinedTextFrame.WriteTo` emits exactly `Size`
bytes. -/
theorem UserDefinedTextFrame_WriteTo_length {udtf : UserDefinedTextFrame}
    {out : List Nat} (h : udtf.WriteTo = .ok out) : out.length = udtf.Size := by
  unfold UserDefinedTextFrame.WriteTo at h
  rw [bind_ok_iff] at h
  obtain ⟨d, hd, h⟩ := h
  rw [bind_ok_iff] at h
  obtain ⟨v, hv, h⟩ := h
  cases h
  have h1 := encodeWriteTextBytes_length hd
  have h2 := encodeWriteTextBytes_length hv
  simp [UserDefinedTextFrame.Size, List.length_append, h1, h2]
  omega

/-- A successful `SynchronisedLyricsFrame.WriteTo` emits exactly `Size`
bytes. -/
theorem SynchronisedLyricsFrame_WriteTo_length {sylf : SynchronisedLyricsFrame}
    {out : List Nat} (h : sylf.WriteTo = .ok out) : out.length = sylf.Size := by
  unfold SynchronisedLyricsFrame.WriteTo at h
  split at h
  · cases h
  · rw [bind_ok_iff] at h
    obtain ⟨d, hd, h⟩ := h
    rw [bind_ok_iff] at h
    obtain ⟨sb, hsb, h⟩ := h
    cases h
    have h1 := encodeWriteTextBytes_length hd
    have h2 := syncTextsBytes_length _ _ hsb
    simp [SynchronisedLyricsFrame.Size, List.length_append, h1, h2]
    omega

/-- A successful `UnsynchronisedLyricsFrame.WriteTo` emits exactly `Size`
bytes. -/
theorem UnsynchronisedLyricsFrame_WriteTo_length {uslf : UnsynchronisedLyricsFrame}
    {out : List Nat} (h : uslf.WriteTo = .ok out) : out.length = uslf.Size := by
  unfold UnsynchronisedLyricsFrame.WriteTo at h
  split at h
  · cases h
  · rw [bind_ok_iff] at h
    obtain ⟨d, hd, h⟩ := h
    rw [bind_ok_iff] at h
    obtain ⟨l, hl, h⟩ := h
    cases h
    have h1 := encodeWriteTextBytes_length hd
    have h2 := encodeWriteTextBytes_length hl
    simp [UnsynchronisedLyricsFrame.Size, List.length_append, h1, h2]
    omega

/-- A successful `ChapterFrame.WriteTo` emits exactly `Size` bytes. -/
theorem ChapterFrame_WriteTo_length {cf : ChapterFrame} {out : List Nat}
    (h : cf.WriteTo = .ok out) : out.length = cf.Size := by
  unfold ChapterFrame.WriteTo at h
  rw [bind_ok_iff] at h
  obtain ⟨e, he, h⟩ := h
  rw [bind_ok_iff] at h
  obtain ⟨tpart, htp, h⟩ := h
  rw [bind_ok_iff] at h
  obtain ⟨dpart, hdp, h⟩ := h
  cases h
  have h1 := encodeWriteTextBytes_length he
  have htl : tpart.length = match cf.title with
      | none => 0
      | some t => frameHeaderSize + t.Size := by
    cases ht : cf.title with
    | none =>
      rw [ht] at htp
      cases htp
      rfl
    | some t =>
      rw [ht] at htp
      exact writeTextSubframe_length (by decide) htp
  have hdl : dpart.length = match cf.description with
      | none => 0
      | some d => frameHeaderSize + d.Size := by
    cases hd : cf.description with
    | none =>
      rw [hd] at hdp
      cases hdp
      rfl
    | some d =>
      rw [hd] at hdp
      exact writeTextSubframe_length (by decide) hdp
  clear htp hdp
  simp only [ChapterFrame.Size, List.length_append, h1, htl, hdl, int32BE, be4,
    List.length_cons, List.length_nil]

/-- C2 (amended): for every frame variant, a successful `WriteTo` emits
exactly `Size` bytes — with the UFID owner restricted to ASCII (the claim
fails for non-ASCII owners, see the counterexample). -/
theorem Framer_WriteTo_matches_Size (f : Framer) (out : List Nat)
    (hpre : writeSizePrecond f) (h : f.WriteTo = .ok out) :
    out.length = f.Size := by
  cases f with
  | text tf => exact TextFrame_WriteTo_length h
  | comment cf => exact CommentFrame_WriteTo_length h
  | picture pf => exact PictureFrame_WriteTo_length h
  | popularimeter pf => exact PopularimeterFrame_WriteTo_length h
  | ufid uf => exact UFIDFrame_WriteTo_length hpre h
  | link lf => exact LinkFrame_WriteTo_length h
  | userDefinedText udtf => exact UserDefinedTextFrame_WriteTo_length h
  | syncLyrics sylf => exact SynchronisedLyricsFrame_WriteTo_length h
  | unsyncLyrics uslf => exact UnsynchronisedLyricsFrame_WriteTo_length h
  | chapter cf => exact ChapterFrame_WriteTo_length h
  | unknown uf =>
    cases h
    rfl

/-- C2 (counterexample to the claim as stated): the UFID frame with the
non-ASCII owner "é" writes 3 bytes while `Size` reports 2. -/
theorem Framer_ufid_size_mismatch_counterexample :
    Framer.WriteTo (.ufid ⟨[0xC3, 0xA9], []⟩) = .ok [0xC3, 0xA9, 0] ∧
    Framer.Size (.ufid ⟨[0xC3, 0xA9], []⟩) = 2 ∧
    [0xC3, 0xA9, 0].length ≠ Framer.Size (.ufid ⟨[0xC3, 0xA9], []⟩) := by
  decide

/-- Witness for C2 on a concrete comment frame ("eng", ISO encoding). -/
theorem Framer_WriteTo_matches_Size_witness :
    Framer.WriteTo (.comment ⟨EncodingISO, [101, 110, 103], [65], [66]⟩) =
      .ok [0, 101, 110, 103, 65, 0, 66] ∧
    ([0, 101, 110, 103, 65, 0, 66] : List Nat).length =
      Framer.Size (.comment ⟨EncodingISO, [101, 110, 103], [65], [66]⟩) :=
  ⟨by decide,
   Framer_WriteTo_matches_Size (.comment ⟨EncodingISO, [101, 110, 103], [65], [66]⟩)
     [0, 101, 110, 103, 65, 0, 66] trivial (by decide)⟩

/-- `ReadByte` preserves the EOF-only error invariant. -/
theorem ReadByte_eofOnly {br : bufferedReader} (h : eofOnly br.err) :
    eofOnly (br.ReadByte).2.err := by
  unfold bufferedReader.ReadByte
  split
  · exact h
  · split
    · exact Or.inr rfl
    · exact h

/-- `Next` preserves the EOF-only error invariant. -/
theorem Next_eofOnly {br : bufferedReader} {n : Nat} (h : eofOnly br.err) :
    eofOnly (br.Next n).2.err := by
  unfold bufferedReader.Next
  split
  · exact h
  · split
    · exact h
    · split
      · exact Or.inr rfl
      · exact h

/-- `Discard` preserves the EOF-only error invariant. -/
theorem Discard_eofOnly {br : bufferedReader} {n : Nat} (h : eofOnly br.err) :
    eofOnly (br.Discard n).err := by
  unfold bufferedReader.Discard
  split
  · exact h
  · split
    · exact Or.inr rfl
    · exact h

/-- `readTillDelimiter` only ever reports EOF. -/
theorem readTillDelimiter_eofOnly (br : bufferedReader) (d : Nat) :
    eofOnly (br.readTillDelimiter d).2.1 := by
  unfold bufferedReader.readTillDelimiter
  cases br.data.findIdx? (· = d) with
  | none => exact Or.inr rfl
  | some i => exact Or.inl rfl

/-- The multi-byte delimiter loop only ever reports EOF. -/
theorem readTillDelimsLoop_eofOnly (d0 : Nat) (delims : List Nat) :
    ∀ (fuel : Nat) (br : bufferedReader) (acc : List Nat),
      eofOnly (readTillDelimsLoop d0 delims fuel br acc).2.1 := by
  intro fuel
  induction fuel with
  | zero => intro br acc; exact Or.inr rfl
  | succ n ih =>
    intro br acc
    unfold readTillDelimsLoop
    rcases hx : br.readTillDelimiter d0 with ⟨read, e, br'⟩
    have hrd : eofOnly e := by
      have h := readTillDelimiter_eofOnly br d0
      rw [hx] at h
      exact h
    cases e with
    | some er => exact hrd
    | none =>
      dsimp only
      split
      · exact Or.inr rfl
      · split
        · exact Or.inl rfl
        · split
          · exact Or.inr rfl
          · exact ih _ _

/-- `readTillDelimiters` only ever reports EOF. -/
theorem readTillDelimiters_eofOnly (br : bufferedReader) (delims : List Nat) :
    eofOnly (br.readTillDelimiters delims).2.1 := by
  unfold bufferedReader.readTillDelimiters
  match delims with
  | [] => exact Or.inl rfl
  | [d] => exact readTillDelimiter_eofOnly br d
  | d :: x :: rest => exact readTillDelimsLoop_eofOnly d (d :: x :: rest) _ br []

/-- `ReadText` preserves the EOF-only error invariant. -/
theorem ReadText_eofOnly (encoding : Encoding) {br : bufferedReader}
    (h : eofOnly br.err) : eofOnly (br.ReadText encoding).2.err := by
  unfold bufferedReader.ReadText
  split
  · exact h
  · have hrd := readTillDelimiters_eofOnly br encoding.terminationBytes
    rcases hx : br.readTillDelimiters encoding.terminationBytes with ⟨text, e, br₁⟩
    rw [hx] at hrd
    simp only
    split
    · exact Discard_eofOnly (ReadByte_eofOnly hrd)
    · exact Discard_eofOnly hrd

/-- The synchronized-lyrics entry loop never reports the language-length
error (its only failure is the modelled timestamp panic). -/
theorem syltEntriesLoop_not_lang (encoding : Encoding) :
    ∀ (fuel : Nat) (br : bufferedReader) (acc : List SynchronizedText),
      syltEntriesLoop encoding fuel br acc ≠ .error .invalidLanguageLength := by
  intro fuel
  induction fuel with
  | zero =>
    intro br acc h
    cases h
  | succ n ih =>
    intro br acc
    unfold syltEntriesLoop
    rcases hx : br.readTillDelimiters encoding.terminationBytes with ⟨textLyric, e, br₁⟩
    dsimp only
    cases e with
    | some er =>
      intro h
      cases h
    | none =>
      dsimp only
      split
      · intro h
        cases h
      · exact ih _ _

/-- C8 (amended): none of the three language-carrying body parsers ever
returns `ErrInvalidLanguageLength`; a short language field surfaces the
reader's own error (EOF) instead. -/
theorem parsers_never_language_error (input : List Nat) :
    parseCommentFrame input ≠ .error .invalidLanguageLength ∧
    parseSynchronisedLyricsFrame input ≠ .error .invalidLanguageLength ∧
    parseUnsynchronisedLyricsFrame input ≠ .error .invalidLanguageLength := by
  have h0 : eofOnly (⟨input, none⟩ : bufferedReader).err := Or.inl rfl
  refine ⟨?_, ?_, ?_⟩
  · unfold parseCommentFrame
    rcases hA : (⟨input, none⟩ : bufferedReader).ReadByte with ⟨encByte, brA⟩
    have h1 : eofOnly brA.err := by
      have := ReadByte_eofOnly h0
      rw [hA] at this
      exact this
    dsimp only
    rcases hB : brA.Next 3 with ⟨language, brB⟩
    have h2 : eofOnly brB.err := by
      have := Next_eofOnly (n := 3) h1
      rw [hB] at this
      exact this
    dsimp only
    rcases hC : brB.ReadText (getEncoding encByte) with ⟨description, brC⟩
    have h3 : eofOnly brC.err := by
      have := ReadText_eofOnly (getEncoding encByte) h2
      rw [hC] at this
      exact this
    dsimp only
    rcases h3 with h3 | h3 <;> rw [h3] <;> intro h <;> cases h
  · unfold parseSynchronisedLyricsFrame
    rcases hA : (⟨input, none⟩ : bufferedReader).ReadByte with ⟨encByte, brA⟩
    have h1 : eofOnly brA.err := by
      have := ReadByte_eofOnly h0
      rw [hA] at this
      exact this
    dsimp only
    rcases hB : brA.Next 3 with ⟨language, brB⟩
    have h2 : eofOnly brB.err := by
      have := Next_eofOnly (n := 3) h1
      rw [hB] at this
      exact this
    dsimp only
    rcases hC : brB.ReadByte with ⟨tsFormat, brC⟩
    have h3 : eofOnly brC.err := by
      have := ReadByte_eofOnly h2
      rw [hC] at this
      exact this
    dsimp only
    rcases hD : brC.ReadByte with ⟨contentType, brD⟩
    have h4 : eofOnly brD.err := by
      have := ReadByte_eofOnly h3
      rw [hD] at this
      exact this
    dsimp only
    rcases hE : brD.ReadText (getEncoding encByte) with ⟨contentDescriptor, brE⟩
    have h5 : eofOnly brE.err := by
      have := ReadText_eofOnly (getEncoding encByte) h4
      rw [hE] at this
      exact this
    dsimp only
    rcases h5 with h5 | h5
    · rw [h5]
      dsimp only
      have hloop := syltEntriesLoop_not_lang (getEncoding encByte)
      intro h
      split at h
      · rename_i e heq
        cases h
        exact hloop _ _ _ heq
      · cases h
    · rw [h5]
      intro h
      cases h
  · unfold parseUnsynchronisedLyricsFrame
    rcases hA : (⟨input, none⟩ : bufferedReader).ReadByte with ⟨encByte, brA⟩
    have h1 : eofOnly brA.err := by
      have := ReadByte_eofOnly h0
      rw [hA] at this
      exact this
    dsimp only
    rcases hB : brA.Next 3 with ⟨language, brB⟩
    have h2 : eofOnly brB.err := by
      have := Next_eofOnly (n := 3) h1
      rw [hB] at this
      exact this
    dsimp only
    rcases hC : brB.ReadText (getEncoding encByte) with ⟨contentDescriptor, brC⟩
    have h3 : eofOnly brC.err := by
      have := ReadText_eofOnly (getEncoding encByte) h2
      rw [hC] at this
      exact this
    dsimp only
    rcases h3 with h3 | h3 <;> rw [h3] <;> intro h <;> cases h

/-- C8 (counterexample to the claim as stated): a comment body whose
language field has only 2 bytes available makes the parser return EOF, not
the distinguished language-length error. -/
theorem parseCommentFrame_short_language_counterexample :
    parseCommentFrame [0, 101] = .error Err.eof ∧
    Err.eof ≠ Err.invalidLanguageLength := by
  decide

/-- C7 (amended): `Tag.parse` treats a missing `"ID3"` marker (with at least
the 10 header bytes available) and a completely empty source as recoverable:
it returns no error and initializes the aggregate empty — no frames, version
4, zero recorded size. (Sources supplying 1–9 bytes instead fail with
`ErrSmallHeaderSize`, see the counterexample.) The frame-scan stage is
universally quantified as `pfi`, so the result holds whatever the scan does. -/
theorem Tag_parse_recoverable_absence {α : Type}
    (pfi : Tag α → List Nat → Options → Except Err (Tag α))
    (tag : Tag α) (input : List Nat) (opts : Options) :
    (10 ≤ input.length → input.take 3 ≠ id3Identifier →
      Tag.parse pfi tag input opts = .ok (tag.init 0 4)) ∧
    (input.length = 0 → Tag.parse pfi tag input opts = .ok (tag.init 0 4)) ∧
    (tag.init 0 4).frames = [] ∧ (tag.init 0 4).sequences = [] ∧
    (tag.init 0 4).version = 4 ∧ (tag.init 0 4).originalSize = 0 := by
  refine ⟨?_, ?_, rfl, rfl, rfl, rfl⟩
  · intro hlen hmark
    have hh : parseHeader input = .error Err.noTag := by
      unfold parseHeader
      simp only [tagHeaderSize]
      rw [if_neg (by omega)]
      rw [if_neg (by omega)]
      have h3 : (input.take 10).take 3 = input.take 3 := by
        rw [List.take_take]
        norm_num
      have hid : isID3Tag ((input.take 10).take 3) = false := by
        simp [isID3Tag, h3, id3Identifier] at hmark ⊢
        intro h1 h2
        exact hmark h2
      rw [if_pos (by simp [hid])]
    unfold Tag.parse
    rw [hh]
    dsimp only
    rw [if_pos (Or.inl rfl)]
  · intro hlen
    have hh : parseHeader input = .error Err.eof := by
      unfold parseHeader
      rw [if_pos hlen]
    unfold Tag.parse
    rw [hh]
    dsimp only
    rw [if_pos (Or.inr rfl)]

/-- Witness for C7: a 10-byte all-zero source (no marker) and the empty
source both initialize an empty v4 tag without error. -/
theorem Tag_parse_recoverable_absence_witness :
    Tag.parse (fun t _ _ => .ok t) (⟨[], [], EncodingUTF8, 0, 4⟩ : Tag Unit)
      [0, 0, 0, 0, 0, 0, 0, 0, 0, 0] ⟨true, []⟩ =
      .ok ((⟨[], [], EncodingUTF8, 0, 4⟩ : Tag Unit).init 0 4) ∧
    Tag.parse (fun t _ _ => .ok t) (⟨[], [], EncodingUTF8, 0, 4⟩ : Tag Unit)
      [] ⟨true, []⟩ = .ok ((⟨[], [], EncodingUTF8, 0, 4⟩ : Tag Unit).init 0 4) :=
  ⟨(Tag_parse_recoverable_absence (fun t _ _ => .ok t) _ _ _).1 (by norm_num) (by decide),
   (Tag_parse_recoverable_absence (fun t _ _ => .ok t) _ _ _).2.1 rfl⟩

/-- C7 (counterexample to the claim as stated): a source supplying only 5
bytes — fewer than the 10-byte header — makes `Tag.parse` fail with
`ErrSmallHeaderSize` instead of initializing an empty tag. -/
theorem Tag_parse_short_header_counterexample :
    Tag.parse (fun t _ _ => .ok t) (⟨[], [], EncodingUTF8, 0, 4⟩ : Tag Unit)
      [73, 68, 51, 4, 0] ⟨true, []⟩ = .error Err.smallHeaderSize := by
  decide

end Id3v2
